import Mathlib

/-!
Shallow embedding of the Interview Orchestration Engine of the
recruitment SaaS backend (`app/services/interview_service.py`,
`app/services/telegram_service.py`, `app/models/*.py`, `app/config.py`).

Conventions of the embedding:
* MongoDB documents become Lean structures; the database becomes an
  explicit `DB` value threaded through every operation.
* Document ids are `Nat` (fresh ids are drawn from counters on `DB`).
* Python `float` arithmetic in the billing code is modelled over `ℚ`
  (the configured rates 1.00 and 2.50 and all token counts are exactly
  representable, so the real-valued cost formula is captured exactly).
* `datetime` fields (`created_at`, `updated_at`, log timestamps) are not
  modelled; no claim depends on wall-clock time.
* Calls into OpenAI and Airtable are modelled as oracle inputs: each
  operation takes the outcome of the external call (`Except` for a call
  that may raise) as an argument.  `json.loads` of LLM-produced text is
  likewise modelled by its outcome, carried inside the oracle value.
* A Python exception that escapes a code region is modelled by an
  explicit error result that also carries the database state at the
  point of the raise (writes made before the raise persist).
-/

set_option maxRecDepth 100000

namespace Interview

/-- JSON values, for data produced by the LLM (tool-call arguments and the
scoring result object). -/
inductive Json where
  | str : String → Json
  | num : Int → Json
  | bool : Bool → Json
  | null : Json
  | arr : List Json → Json
  | obj : List (String × Json) → Json

/-- Lookup in a JSON object with default, Python `dict.get(key, default)`. -/
def dictGet (d : List (String × Json)) (key : String) (dflt : Json) : Json :=
  match d.find? (fun kv => decide (kv.1 = key)) with
  | some kv => kv.2
  | none => dflt

/-- Python `str()` of a JSON value, used only to render Airtable notes.
Container rendering approximates Python `repr`; no claim depends on it. -/
def pyStrJson : Json → String
  | .str s => s
  | .num n => toString n
  | .bool b => if b then "True" else "False"
  | .null => "None"
  | .arr _ => "[...]"
  | .obj _ => "\x7b...\x7d"

/-- Result of `json.loads(tool_call.function.arguments)`: the raw argument
string is carried as its parse outcome (`.error` = the string is not valid
JSON and `json.loads` raises). -/
structure ToolCall where
  id : String
  function_name : String
  argsParse : Except String (List (String × Json))

/-- One chat message, both as stored in `interview_sessions.messages` and as
an element of the in-memory working history of a turn. -/
structure Msg where
  role : String
  content : Option String := none
  tool_call_id : Option String := none
  tool_name : Option String := none
  tool_calls : List ToolCall := []

/-- Token usage metadata of one OpenAI response. -/
structure Usage where
  prompt_tokens : Nat
  completion_tokens : Nat

/-- The assistant message of an OpenAI response. -/
structure LLMMsg where
  content : Option String := none
  tool_calls : List ToolCall := []

/-- Outcome of one `chat.completions.create` call. -/
structure LLMResponse where
  message : LLMMsg
  usage : Option Usage := none

/-- Outcome of the scoring call in `evaluate_interview`: its usage metadata
and the result of `json.loads` on its content (`.error` covers both a `None`
content and malformed JSON; `response_format=json_object` guarantees that a
successful parse yields an object). -/
structure ScoreResp where
  usage : Option Usage := none
  parsed : Except String (List (String × Json))

/-- Stored document of the `interview_sessions` collection
(`app/models/interview.py`, `InterviewSession`).  `scores` and
`total_score` hold raw JSON written by `complete_interview`. -/
structure Session where
  id : Nat
  candidate_id : Nat
  pipeline_id : Nat
  platform : String := "web_simulator"
  telegram_chat_id : Option String := none
  messages : List Msg := []
  status : String := "active"
  scores : Json := .arr []
  total_score : Json := .num 0

/-- Stored document of the `candidates` collection
(`app/models/candidate.py`, `CandidateModel`; the Airtable and billing
fields used by the interview engine). -/
structure Candidate where
  id : Nat
  organization_id : Nat
  pipeline_id : Nat
  first_name : String := ""
  last_name : String := ""
  telegram_chat_id : Option String := none
  status : String := "active"
  airtable_record_id : Option String := none
  total_input_tokens : Int := 0
  total_output_tokens : Int := 0
  total_ai_cost : ℚ := 0

/-- Stored document of the `organizations` collection (the fields the
engine reads/writes: Airtable config and billing counters). -/
structure Org where
  id : Nat
  airtable_api_key : Option String := none
  airtable_base_id : Option String := none
  total_input_tokens : Int := 0
  total_output_tokens : Int := 0
  total_ai_cost : ℚ := 0

/-- Stored document of the `users` collection, as read by
`TelegramService.get_target_org_id`. -/
structure UserDoc where
  email : String
  organization_id : Nat

/-- Conditional follow-up attached to a question
(`app/models/question.py`, `FollowUpQuestion`). -/
structure FollowUp where
  text : String
  condition : String
  scoring_rubric : String := ""
  max_score : Int := 5

/-- Question inside a pipeline stage (`app/models/question.py`,
`Question`; the fields the interview engine reads). -/
structure Question where
  question_id : String
  text : String
  follow_up : Option FollowUp := none
  scoring_rubric : String := ""
  max_score : Int := 10

/-- Pipeline stage (`app/models/pipeline.py`, `PipelineStage`). -/
structure Stage where
  questions : List Question := []

/-- AI agent configuration (`app/models/question.py`, `InterviewAgent`). -/
structure AgentConfig where
  enabled : Bool := false
  agent_prompt : String := ""

/-- Stored document of the `pipelines` collection
(`app/models/pipeline.py`, `RecruitmentPipelineModel`; relevant fields). -/
structure Pipeline where
  id : Nat
  interview_agent : Option AgentConfig := none
  stages : List Stage := []
  airtable_table_id : Option String := none

/-- One entry of the `token_usage_logs` collection, as written by
`InterviewService._log_token_usage`. -/
structure UsageLog where
  organization_id : Nat
  candidate_id : Nat
  interaction_type : String
  model : String
  input_tokens : Int
  output_tokens : Int
  cost : ℚ

/-- The database state: the collections the interview engine touches,
plus counters supplying the ids MongoDB would generate on insert. -/
structure DB where
  users : List UserDoc := []
  organizations : List Org := []
  pipelines : List Pipeline := []
  candidates : List Candidate := []
  interview_sessions : List Session := []
  token_usage_logs : List UsageLog := []
  nextSessionId : Nat := 0
  nextCandidateId : Nat := 0

/-- Billing settings (`app/config.py`, `Settings`): the configured
per-million token rates (defaults 1.00 and 2.50 dollars). -/
structure Settings where
  input_token_cost_per_million : ℚ
  output_token_cost_per_million : ℚ

/-- The `settings` instance with the default rates. -/
def settings : Settings :=
  { input_token_cost_per_million := 1
    output_token_cost_per_million := 5 / 2 }

/-- The model name hardcoded in `InterviewService.__init__`. -/
def serviceModel : String := "gpt-4-turbo-preview"

/-! ## Prompt compilation (`InterviewService.get_system_prompt`) -/

/-- Character-level engine of `pyReplace`, with a fuel argument (taken to
be the text length) so that it is structurally recursive and evaluates
inside the kernel. -/
def pyReplaceChars (pat rep : List Char) : Nat → List Char → List Char
  | _, [] => []
  | 0, t => t
  | fuel+1, c :: rest =>
    if pat ≠ [] ∧ pat.isPrefixOf (c :: rest) then
      rep ++ pyReplaceChars pat rep fuel ((c :: rest).drop pat.length)
    else c :: pyReplaceChars pat rep fuel rest

/-- Python `str.replace` (leftmost, non-overlapping, all occurrences) for a
non-empty pattern; the engine only ever replaces the four fixed placeholder
tokens, so the empty-pattern case (where Python interleaves the
replacement) is not modelled. -/
def pyReplace (s pat rep : String) : String :=
  if pat = "" then s
  else String.mk (pyReplaceChars pat.data rep.data s.data.length s.data)

/-- Character-level engine of `pySplitHead`: the prefix of the text before
the first occurrence of the separator. -/
def splitFirstChars (sep : List Char) : Nat → List Char → List Char
  | _, [] => []
  | 0, t => t
  | fuel+1, c :: rest =>
    if sep ≠ [] ∧ sep.isPrefixOf (c :: rest) then []
    else c :: splitFirstChars sep fuel rest

/-- Python `s.split(sep)[0]` for a non-empty separator, as used by
`get_system_prompt` for the last-question text. -/
def pySplitHead (s sep : String) : String :=
  if sep = "" then s
  else String.mk (splitFirstChars sep.data s.data.length s.data)

/-- One entry of `questions_data` in `get_system_prompt`: the question text
plus the `[FOLLOW-UP]` suffix produced for a follow-up with non-empty text. -/
def questionEntry (q : Question) : String :=
  let entry := q.text
  match q.follow_up with
  | none => entry
  | some f =>
    if f.text = "" then entry
    else if f.condition = "ai_judgment" then
      entry ++ "\n   [FOLLOW-UP] If the answer is vague or interesting, ask: \""
        ++ f.text ++ "\""
    else
      entry ++ "\n   [FOLLOW-UP] If answer is \"" ++ f.condition
        ++ "\" (or similar), ask: \"" ++ f.text ++ "\""

/-- The flattened `questions_data` list gathered across all stages. -/
def questionsData (p : Pipeline) : List String :=
  p.stages.flatMap (fun st => st.questions.map questionEntry)

/-- The two default questions `get_system_prompt` substitutes when the
pipeline has no questions at all. -/
def defaultQuestions : List String :=
  ["Describe your background.", "Why do you want this job?"]

/-- Embedding of `InterviewService.get_system_prompt`.  Looks up the
pipeline, falls back to a generic prompt when it is missing or the agent is
disabled, and otherwise substitutes the four placeholders in the configured
template.  An empty question list is replaced by `defaultQuestions`. -/
def get_system_prompt (db : DB) (pipeline_id : Nat) : String :=
  match db.pipelines.find? (fun p => decide (p.id = pipeline_id)) with
  | none => "You are a helpful interviewer. Please ask questions."
  | some pipeline =>
    match pipeline.interview_agent with
    | none => "You are a helpful interviewer. Please ask questions in English."
    | some agent_config =>
      if ¬ agent_config.enabled then
        "You are a helpful interviewer. Please ask questions in English."
      else
        let prompt_template := agent_config.agent_prompt
        let questions_data0 := questionsData pipeline
        let questions_data :=
          if questions_data0.isEmpty then defaultQuestions else questions_data0
        let total_questions := questions_data.length
        let last_question_text :=
          match questions_data.getLast? with
          | some q => pySplitHead q "\n"
          | none => ""
        let penultimate_question :=
          if total_questions > 1 then total_questions - 1 else 1
        let questions_list_str :=
          String.intercalate "\n"
            (questions_data.mapIdx (fun i q => toString (i + 1) ++ ". " ++ q))
        let final_prompt :=
          pyReplace prompt_template "\x7b\x7bTOTAL_QUESTIONS\x7d\x7d"
            (toString total_questions)
        let final_prompt :=
          pyReplace final_prompt "\x7b\x7bQUESTIONS_LIST\x7d\x7d" questions_list_str
        let final_prompt :=
          pyReplace final_prompt "\x7b\x7bLAST_QUESTION_TEXT\x7d\x7d" last_question_text
        let final_prompt :=
          pyReplace final_prompt "\x7b\x7bPENULTIMATE_QUESTION\x7d\x7d"
            (toString penultimate_question)
        final_prompt

/-! ## The fixed tool schema of `process_message` -/

/-- JSON-schema of one tool parameter object, as written literally in
`process_message`: the property names (with their declared types) and the
required list. -/
structure ToolParams where
  properties : List (String × String) := []
  required : List String := []

/-- One entry of the `tools` list passed to the LLM. -/
structure ToolSchema where
  schema_type : String := "function"
  function_name : String
  description : String
  parameters : ToolParams

/-- The literal `tools` list built in `InterviewService.process_message`
(lines 147-181): three function tools. -/
def tools : List ToolSchema :=
  [ { function_name := "end_interview"
      description := "Call this function when the interview is complete (all questions answered)."
      parameters := { properties := [], required := [] } }
  , { function_name := "Retrieve_messages1"
      description := "Retrieve conversation context and history."
      parameters := { properties := [], required := [] } }
  , { function_name := "User_Info1"
      description := "Save candidate details extracted from answers."
      parameters := { properties := [("data", "object")], required := ["data"] } } ]

/-! ## Primitive database mutations -/

/-- Apply `f` to every stored session (MongoDB `update_one` filtered by
`_id`; all update sites filter on the id inside `f`, and ids are unique in
every reachable state, so mapping over the collection is faithful). -/
def updateSessions (db : DB) (f : Session → Session) : DB :=
  { db with interview_sessions := db.interview_sessions.map f }

/-- MongoDB `$push` of one message onto a session's `messages` array. -/
def pushMsg (db : DB) (sid : Nat) (m : Msg) : DB :=
  updateSessions db (fun s =>
    if s.id = sid then { s with messages := s.messages ++ [m] } else s)

/-- MongoDB `$set {status: "abandoned"}` as performed by
`TelegramService.button_click`. -/
def abandonUpdate (db : DB) (sid : Nat) : DB :=
  updateSessions db (fun s =>
    if s.id = sid then { s with status := "abandoned" } else s)

/-- MongoDB `$set {status: "completed", scores, total_score}` as performed
by `InterviewService.complete_interview`. -/
def completeUpdate (db : DB) (sid : Nat) (scores total : Json) : DB :=
  updateSessions db (fun s =>
    if s.id = sid then
      { s with status := "completed", scores := scores, total_score := total }
    else s)

/-! ## Usage ledger (`InterviewService._log_token_usage`) -/

/-- Embedding of `_log_token_usage`: resolves the candidate (silently
returning when it is missing), computes the cost from the configured
per-million rates, inserts one log entry, and `$inc`-updates the running
totals on the candidate and its organization. -/
def log_token_usage (db : DB) (usage : Usage) (candidate_id : Nat)
    (interaction_type : String) : DB :=
  match db.candidates.find? (fun c => decide (c.id = candidate_id)) with
  | none => db
  | some candidate =>
    let org_id := candidate.organization_id
    let input_tokens : Int := usage.prompt_tokens
    let output_tokens : Int := usage.completion_tokens
    let cost_input : ℚ :=
      ((input_tokens : ℚ) / 1000000) * settings.input_token_cost_per_million
    let cost_output : ℚ :=
      ((output_tokens : ℚ) / 1000000) * settings.output_token_cost_per_million
    let total_cost := cost_input + cost_output
    let log_entry : UsageLog :=
      { organization_id := org_id
        candidate_id := candidate_id
        interaction_type := interaction_type
        model := serviceModel
        input_tokens := input_tokens
        output_tokens := output_tokens
        cost := total_cost }
    let db1 := { db with token_usage_logs := db.token_usage_logs ++ [log_entry] }
    let db2 := { db1 with candidates := db1.candidates.map (fun (c : Candidate) =>
      if c.id = candidate_id then
        { c with total_input_tokens := c.total_input_tokens + input_tokens
                 total_output_tokens := c.total_output_tokens + output_tokens
                 total_ai_cost := c.total_ai_cost + total_cost }
      else c) }
    { db2 with organizations := db2.organizations.map (fun (o : Org) =>
      if o.id = org_id then
        { o with total_input_tokens := o.total_input_tokens + input_tokens
                 total_output_tokens := o.total_output_tokens + output_tokens
                 total_ai_cost := o.total_ai_cost + total_cost }
      else o) }

/-- The `if response.usage: await self._log_token_usage(...)` pattern used
after every LLM call. -/
def usageLogDB (db : DB) (cid : Nat) (tag : String) (u : Option Usage) : DB :=
  match u with
  | some usage => log_token_usage db usage cid tag
  | none => db

/-! ## Session bootstrap (`create_session` / `_generate_initial_greeting`) -/

/-- The apologetic assistant message `_generate_initial_greeting` appends
when the greeting attempt raises. -/
def apologyMsg (e : String) : Msg :=
  { role := "assistant"
    content := some ("I apologize, I'm having trouble starting the interview. Error details: " ++ e) }

/-- Embedding of `_generate_initial_greeting`.  `greet` is the outcome of
the OpenAI call.  On success with usage metadata the usage is logged; a
non-empty assistant text is pushed onto the stored log.  A `None` content
raises a `TypeError` at the debug print (`ai_message.content[:50]`), which
the surrounding `except` turns into an apologetic assistant message; an
OpenAI error is handled the same way. -/
def generate_initial_greeting (db : DB) (session : Session)
    (greet : Except String LLMResponse) : DB :=
  match greet with
  | .error e => pushMsg db session.id (apologyMsg e)
  | .ok resp =>
    let db1 := usageLogDB db session.candidate_id "greeting" resp.usage
    match resp.message.content with
    | none =>
      pushMsg db1 session.id
        (apologyMsg "TypeError: 'NoneType' object is not subscriptable")
    | some c =>
      if c = "" then db1
      else pushMsg db1 session.id { role := "assistant", content := some c }

/-- Pydantic validation performed by `InterviewSession(**doc)`: the
`status` field is `Literal["active", "completed"]`, `scores` must be a
list of dicts and `total_score` an int.  A stored document violating this
raises a `ValidationError`. -/
def validSessionDoc (s : Session) : Bool :=
  (decide (s.status = "active") || decide (s.status = "completed"))
    && (match s.scores with
        | .arr xs => xs.all (fun j => match j with | .obj _ => true | _ => false)
        | _ => false)
    && (match s.total_score with | .num _ => true | _ => false)

/-- Result of `create_session`: the returned session, or a propagated
exception (`ValueError` for a missing candidate/pipeline, a
`ValidationError`/`TypeError` from re-parsing). -/
inductive CreateResult where
  | ok (s : Session)
  | err (msg : String)

/-- The self-healing branch of `create_session` (an existing active session
with an empty message log): regenerate the greeting, re-fetch, re-parse. -/
def create_heal (db : DB) (existing : Session)
    (greet : Except String LLMResponse) : CreateResult × DB :=
  if ¬ validSessionDoc existing then (.err "ValidationError", db)
  else
    let db1 := generate_initial_greeting db existing greet
    match db1.interview_sessions.find? (fun s => decide (s.id = existing.id)) with
    | none => (.err "TypeError", db1)
    | some refetched =>
      if ¬ validSessionDoc refetched then (.err "ValidationError", db1)
      else (.ok refetched, db1)

/-- The existing-active-session branch of `create_session`. -/
def create_existing (db : DB) (existing : Session)
    (greet : Except String LLMResponse) : CreateResult × DB :=
  if existing.messages.isEmpty then create_heal db existing greet
  else
    if ¬ validSessionDoc existing then (.err "ValidationError", db)
    else (.ok existing, db)

/-- The fresh `InterviewSession(...)` document built by `create_session`. -/
def newSession (db : DB) (candidate_id pipeline_id : Nat) (platform : String)
    (chat_id : Option String) : Session :=
  { id := db.nextSessionId
    candidate_id := candidate_id
    pipeline_id := pipeline_id
    platform := platform
    telegram_chat_id := chat_id
    messages := []
    status := "active"
    scores := .arr []
    total_score := .num 0 }

/-- The no-active-session branch of `create_session`: insert a fresh active
session, generate the opening greeting, re-fetch. -/
def create_fresh (db : DB) (candidate_id pipeline_id : Nat) (platform : String)
    (chat_id : Option String) (greet : Except String LLMResponse) :
    CreateResult × DB :=
  let sess := newSession db candidate_id pipeline_id platform chat_id
  let db1 := { db with
    interview_sessions := db.interview_sessions ++ [sess]
    nextSessionId := db.nextSessionId + 1 }
  let db2 := generate_initial_greeting db1 sess greet
  match db2.interview_sessions.find? (fun s => decide (s.id = sess.id)) with
  | none => (.err "TypeError", db2)
  | some refetched =>
    if ¬ validSessionDoc refetched then (.err "ValidationError", db2)
    else (.ok refetched, db2)

/-- Embedding of `InterviewService.create_session`.  Returns the result
together with the database state (writes made before a raise persist).
`greet` is the oracle for the (at most one) greeting call performed. -/
def create_session (db : DB) (candidate_id : Nat) (platform : String)
    (chat_id : Option String) (greet : Except String LLMResponse) :
    CreateResult × DB :=
  match db.candidates.find? (fun c => decide (c.id = candidate_id)) with
  | none => (.err "Candidate not found", db)
  | some candidate =>
    match db.pipelines.find? (fun p => decide (p.id = candidate.pipeline_id)) with
    | none => (.err "Pipeline not found", db)
    | some _pipeline =>
      match db.interview_sessions.find?
          (fun s => decide (s.candidate_id = candidate_id ∧ s.status = "active")) with
      | some existing => create_existing db existing greet
      | none => create_fresh db candidate_id candidate.pipeline_id platform chat_id greet

/-! ## Scoring engine (`evaluate_interview`) -/

/-- One entry of the `questions_data` list gathered by
`evaluate_interview` across all stages. -/
structure ScoringQ where
  id : String
  text : String
  rubric : String
  max_score : Int

/-- The questions/rubrics gathered by `evaluate_interview`. -/
def scoringQuestions (p : Pipeline) : List ScoringQ :=
  p.stages.flatMap (fun st => st.questions.map (fun q =>
    { id := q.question_id
      text := q.text
      rubric := q.scoring_rubric
      max_score := q.max_score }))

/-- Python rendering of a stored message's `content` inside an f-string
(`None` when the key holds `None`). -/
def msgContentStr (m : Msg) : String :=
  match m.content with
  | some c => c
  | none => "None"

/-- Transcript lines built by `evaluate_interview` / `complete_interview`:
system messages are skipped, assistant messages are tagged `AI`, everything
else `Candidate`. -/
def transcriptLines (msgs : List Msg) : List String :=
  (msgs.filter (fun m => decide (m.role ≠ "system"))).map (fun m =>
    let role := if m.role = "system" ∨ m.role = "assistant" then "AI" else "Candidate"
    role ++ ": " ++ msgContentStr m)

/-- Rendering of one `questions_data` entry, standing for
`json.dumps(questions_data, indent=2)` (whitespace layout and string
escaping of the Python renderer are not reproduced; the prompt text is
consumed only by the LLM oracle). -/
def scoringQJson (q : ScoringQ) : String :=
  "\x7b\"id\": \"" ++ q.id ++ "\", \"text\": \"" ++ q.text
    ++ "\", \"rubric\": \"" ++ q.rubric
    ++ "\", \"max_score\": " ++ toString q.max_score ++ "\x7d"

/-- The scoring prompt assembled by `evaluate_interview`. -/
def scoringPrompt (questions_data : List ScoringQ) (transcript_text : String) : String :=
  "\n        You are an expert HR evaluator. Analyze the following interview transcript and score the candidate's answers based on the provided questions and rubrics.\n        \n        ### QUESTIONS & RUBRICS\n        "
    ++ "[" ++ String.intercalate ", " (questions_data.map scoringQJson) ++ "]"
    ++ "\n        \n        ### TRANSCRIPT\n        " ++ transcript_text
    ++ "\n        \n        ### INSTRUCTIONS\n        - Retrieve the candidate's answer for each question from the transcript.\n        - Evaluate the answer against the rubric.\n        - Assign a score (0 to max_score).\n        - Provide a brief reasoning.\n        - If a question was NOT asked or NOT answered, score it 0 and mark as \"not_answered\".\n        \n        ### OUTPUT FORMAT (JSON)\n        \x7b\n            \"scores\": [\n                \x7b\n                    \"question_id\": \"q1\",\n                    \"score\": 8,\n                    \"reasoning\": \"Candidate explained...\"\n                \x7d\n            ],\n            \"total_score\": 50,\n            \"summary_notes\": \"Candidate showed strong...\"\n        \x7d\n        "

/-- The fallback result `evaluate_interview` returns when the scoring call
or the JSON parse fails. -/
def failDict : List (String × Json) :=
  [("scores", .arr []), ("total_score", .num 0),
   ("summary_notes", .str "Scoring failed.")]

/-- Result of `evaluate_interview`: the (raw JSON object) result together
with the database, or a propagated exception.  The only uncaught raise is
the `AttributeError` on a missing pipeline (`pipeline.get("stages")`
before the `try`); it occurs before any write. -/
inductive EvalResult where
  | ok (result : List (String × Json)) (db : DB)
  | raised (e : String)

/-- Embedding of `InterviewService.evaluate_interview`.  `oracle` is the
outcome of the scoring LLM call (`.error` = the call raised); on success
its usage is logged first, and then the parse outcome of the content
decides between the parsed object and `failDict`. -/
def evaluate_interview (db : DB) (session : Session)
    (oracle : Except String ScoreResp) : EvalResult :=
  match db.pipelines.find? (fun p => decide (p.id = session.pipeline_id)) with
  | none => .raised "AttributeError: 'NoneType' object has no attribute 'get'"
  | some pipeline =>
    let questions_data := scoringQuestions pipeline
    let transcript_text := String.intercalate "\n" (transcriptLines session.messages)
    let _prompt := scoringPrompt questions_data transcript_text
    match oracle with
    | .error _e => .ok failDict db
    | .ok resp =>
      let db1 := usageLogDB db session.candidate_id "scoring" resp.usage
      match resp.parsed with
      | .error _e => .ok failDict db1
      | .ok result => .ok result db1

/-! ## Completion flow (`complete_interview`) -/

/-- Python truthiness of an optional string (`None` and `""` are falsy). -/
def truthy : Option String → Bool
  | some s => s ≠ ""
  | none => false

/-- Result of `complete_interview`: the final database, or a propagated
exception (from `evaluate_interview`) with the database at the raise. -/
inductive CompleteResult where
  | done (db : DB)
  | raised (e : String) (db : DB)

/-- The `$set {status: "interview_completed"}` update performed on the
candidate by `complete_interview`. -/
def markCandidateCompleted (db : DB) (cid : Nat) : DB :=
  { db with candidates := db.candidates.map (fun (c : Candidate) =>
    if c.id = cid then { c with status := "interview_completed" } else c) }

/-- Body of `InterviewService.complete_interview` after `evaluate_interview`
returned: persists `status="completed"` with the scores/total, sets the
candidate's status to `"interview_completed"`, and best-effort syncs to
Airtable (every failure inside the sync block is swallowed).  `airtable`
is the outcome of the `update_record` call. -/
def complete_after (db1 : DB) (scoring_result : List (String × Json))
    (session : Session) (airtable : Except String Unit) : CompleteResult :=
    let scores := dictGet scoring_result "scores" (.arr [])
    let total_score := dictGet scoring_result "total_score" (.num 0)
    let summary := dictGet scoring_result "summary_notes" (.str "")
    let db2 := completeUpdate db1 session.id scores total_score
    let db3 := markCandidateCompleted db2 session.candidate_id
    -- Airtable sync (wrapped in try/except: nothing below can fail the flow)
    match db3.candidates.find? (fun c => decide (c.id = session.candidate_id)) with
    | none => .done db3
    | some candidate =>
      if ¬ truthy candidate.airtable_record_id then .done db3
      else
        match db3.organizations.find? (fun o => decide (o.id = candidate.organization_id)) with
        | none => .done db3   -- `org.get` raises on None, caught by the except
        | some org =>
          match db3.pipelines.find? (fun p => decide (p.id = candidate.pipeline_id)) with
          | none => .done db3 -- `pipeline.get` raises on None, caught by the except
          | some pipeline =>
            if ¬ (truthy org.airtable_api_key && truthy org.airtable_base_id
                  && truthy pipeline.airtable_table_id) then .done db3
            else
              let transcript_text :=
                String.intercalate "\n\n" (transcriptLines session.messages)
              let _notes := "SCORE: " ++ pyStrJson total_score ++ "\n\nSUMMARY: "
                ++ pyStrJson summary ++ "\n\nTRANSCRIPT:\n" ++ transcript_text.take 5000
              match airtable with
              | .ok _ => .done db3
              | .error _ => .done db3   -- logged and swallowed

/-- Embedding of `InterviewService.complete_interview` (the part after
`evaluate_interview` is split out as `complete_after` above). -/
def complete_interview (db : DB) (session : Session)
    (scoring : Except String ScoreResp) (airtable : Except String Unit) :
    CompleteResult :=
  match evaluate_interview db session scoring with
  | .raised e => .raised e db
  | .ok scoring_result db1 => complete_after db1 scoring_result session airtable

/-! ## Turn processor (`process_message`) -/

/-- Result of `process_message`: a reply text, or a propagated exception
(`ValueError` for a missing session, `ValidationError` for a stored
document the pydantic model rejects). -/
inductive ProcResult where
  | reply (text : String)
  | notFound (e : String)
  | invalidDoc (e : String)

/-- Oracle inputs of one `process_message` turn: the outcomes of the first
completion call, the post-tool completion call, the scoring call (used only
when `end_interview` fires) and the Airtable `update_record` call. -/
structure TurnOracle where
  llm1 : Except String LLMResponse
  llm2 : Except String LLMResponse
  scoring : Except String ScoreResp
  airtable : Except String Unit

/-- The assistant tool-call message appended to the working history
(`ai_message.model_dump()`). -/
def aiDump (m : LLMMsg) : Msg :=
  { role := "assistant", content := m.content, tool_calls := m.tool_calls }

/-- Outcome of the tool-execution loop of `process_message`. -/
inductive LoopOut where
  | finished (msgs : List Msg) (db : DB)
  | completedNow (db : DB)
  | raised (e : String) (db : DB)

/-- The `for tool_call in ai_message.tool_calls` loop: parses each call's
arguments (a parse failure raises out of the loop), completes the interview
and returns immediately on `end_interview`, and otherwise appends the fixed
acknowledgment as a tool-result message (`tool_output` stays `"Success"`
for a name matching no branch). -/
def toolLoop (session : Session) (scoring : Except String ScoreResp)
    (airtable : Except String Unit) :
    List ToolCall → List Msg → DB → LoopOut
  | [], msgs, db => .finished msgs db
  | tc :: rest, msgs, db =>
    match tc.argsParse with
    | .error e => .raised e db
    | .ok args =>
      if tc.function_name = "end_interview" then
        match complete_interview db session scoring airtable with
        | .raised e db1 => .raised e db1
        | .done db1 => .completedNow db1
      else
        let tool_output :=
          if tc.function_name = "Retrieve_messages1" then
            "Context retrieved successfully. Proceed with analysis."
          else if tc.function_name = "User_Info1" then
            let _data := dictGet args "data" (.obj [])
            "User info saved."
          else "Success"
        toolLoop session scoring airtable rest
          (msgs ++ [{ tool_call_id := some tc.id, role := "tool"
                      tool_name := some tc.function_name
                      content := some tool_output }]) db

/-- Embedding of `InterviewService.process_message`: loads and validates
the session, short-circuits completed sessions, durably appends the user
message, then runs the LLM round trip(s).  Every exception inside the
`try` block becomes an `Error: `-prefixed reply; the database reflects all
writes made before the exception. -/
def process_message (db : DB) (session_id : Nat) (user_text : String)
    (o : TurnOracle) : ProcResult × DB :=
  match db.interview_sessions.find? (fun s => decide (s.id = session_id)) with
  | none => (.notFound "Session not found", db)
  | some sdata =>
    if ¬ validSessionDoc sdata then (.invalidDoc "ValidationError", db)
    else
      let session := sdata
      if session.status = "completed" then
        (.reply "This interview has already been completed. Thank you!", db)
      else
        let system_prompt := get_system_prompt db session.pipeline_id
        let new_user_msg : Msg := { role := "user", content := some user_text }
        let messages : List Msg :=
          { role := "system", content := some system_prompt } ::
            (session.messages ++ [new_user_msg])
        let db1 := pushMsg db session_id new_user_msg
        match o.llm1 with
        | .error e => (.reply ("Error: " ++ e), db1)
        | .ok response =>
          let db2 := usageLogDB db1 session.candidate_id "chat" response.usage
          let ai_message := response.message
          if ai_message.tool_calls.isEmpty then
            -- the debug print `ai_message.content[:50]` raises on None
            match ai_message.content with
            | none => (.reply "Error: 'NoneType' object is not subscriptable", db2)
            | some c =>
              if c = "" then (.reply "...", db2)
              else (.reply c,
                pushMsg db2 session_id { role := "assistant", content := some c })
          else
            let messages2 := messages ++ [aiDump ai_message]
            match toolLoop session o.scoring o.airtable ai_message.tool_calls
                messages2 db2 with
            | .raised e db3 => (.reply ("Error: " ++ e), db3)
            | .completedNow db3 => (.reply "Interview Completed. Thank you!", db3)
            | .finished _msgs3 db3 =>
              match o.llm2 with
              | .error e => (.reply ("Error: " ++ e), db3)
              | .ok response2 =>
                let db4 := usageLogDB db3 session.candidate_id "chat_tool_response" response2.usage
                match response2.message.content with
                | none => (.reply "I understand. Please continue...", db4)
                | some final_content =>
                  if final_content = "" then
                    (.reply "I understand. Please continue...", db4)
                  else
                    (.reply final_content,
                      pushMsg db4 session_id
                        { role := "assistant", content := some final_content })

/-! ## Telegram adapter (`TelegramService`) -/

/-- Embedding of `TelegramService.get_target_org_id`: the admin user's
organization, else the first organization, else `None`. -/
def get_target_org_id (db : DB) : Option Nat :=
  match db.users.find? (fun u => decide (u.email = "05bca054@gmail.com")) with
  | some admin => some admin.organization_id
  | none =>
    match db.organizations.head? with
    | some org => some org.id
    | none => none

/-- The session part of `TelegramService.button_click` (lines 163-185):
create/resume a session, and when the returned session's last message is
not from the assistant, mark it abandoned and create a fresh one.  A
`create_session` exception is caught by the handler's `except` (an error
text is sent to the chat; no further database effect). -/
def telegram_session_flow (db : DB) (candidate_id : Nat) (chat_id : String)
    (greet1 greet2 : Except String LLMResponse) : DB :=
  match create_session db candidate_id "telegram" (some chat_id) greet1 with
  | (.err _, db1) => db1
  | (.ok session, db1) =>
    match session.messages.getLast? with
    | none => db1
    | some last =>
      if last.role = "assistant" then db1
      else
        let db2 := abandonUpdate db1 session.id
        (create_session db2 candidate_id "telegram" (some chat_id) greet2).2

/-- Embedding of `TelegramService.button_click` for an `apply_` callback:
find-or-create the candidate for this chat/pipeline, then run the session
flow.  When `get_target_org_id` yields `None`, the `CandidateModel`
constructor raises a `ValidationError` that escapes the handler before any
write. -/
def telegram_button_click (db : DB) (pipeline_id : Nat) (chat_id : String)
    (first_name last_name : String)
    (greet1 greet2 : Except String LLMResponse) : DB :=
  match db.candidates.find? (fun c =>
      decide (c.telegram_chat_id = some chat_id ∧ c.pipeline_id = pipeline_id)) with
  | some candidate => telegram_session_flow db candidate.id chat_id greet1 greet2
  | none =>
    match get_target_org_id db with
    | none => db
    | some org_id =>
      let cid := db.nextCandidateId
      let new_candidate : Candidate :=
        { id := cid
          organization_id := org_id
          pipeline_id := pipeline_id
          first_name := if first_name = "" then "Telegram" else first_name
          last_name := if last_name = "" then "User" else last_name
          telegram_chat_id := none
          status := "active" }
      let db1 := { db with
        candidates := db.candidates ++ [new_candidate]
        nextCandidateId := cid + 1 }
      let db2 := { db1 with candidates := db1.candidates.map (fun (c : Candidate) =>
        if c.id = cid then { c with telegram_chat_id := some chat_id } else c) }
      telegram_session_flow db2 cid chat_id greet1 greet2

/-! ## The operations of the engine, as one step relation -/

/-- One externally triggered operation of the interview engine. -/
inductive Op where
  | create (candidate_id : Nat) (platform : String) (chat_id : Option String)
      (greet : Except String LLMResponse)
  | turn (session_id : Nat) (user_text : String) (o : TurnOracle)
  | button (pipeline_id : Nat) (chat_id : String) (first_name last_name : String)
      (greet1 greet2 : Except String LLMResponse)

/-- The database after one operation. -/
def applyOp (db : DB) : Op → DB
  | .create cid p c g => (create_session db cid p c g).2
  | .turn sid t o => (process_message db sid t o).2
  | .button pid chat f l g1 g2 => telegram_button_click db pid chat f l g1 g2

/-! ## Invariant infrastructure

The engine touches the stored session collection only through four kinds of
atomic writes; `SessStep` captures them together with the facts that hold
at each call site, and the lifecycle/uniqueness/role invariants follow by
induction over `Relation.ReflTransGen SessStep`. -/

/-- The three legal lifecycle statuses of a session. -/
def statusOk (st : String) : Prop :=
  st = "active" ∨ st = "completed" ∨ st = "abandoned"

/-- A legal status change: unchanged, or a transition out of `active`. -/
def transitionOk (old new : String) : Prop :=
  new = old ∨ (old = "active" ∧ (new = "completed" ∨ new = "abandoned"))

/-- One atomic write to the stored session collection, with the facts true
at every call site of the engine. -/
inductive SessStep : List Session → List Session → Prop where
  | push (l : List Session) (sid : Nat) (m : Msg)
      (hrole : m.role = "user" ∨ m.role = "assistant") :
      SessStep l (l.map fun s =>
        if s.id = sid then { s with messages := s.messages ++ [m] } else s)
  | complete (l : List Session) (sid : Nat) (sc tot : Json)
      (htarget : ∀ s ∈ l, s.id = sid → s.status = "active" ∨ s.status = "completed") :
      SessStep l (l.map fun s =>
        if s.id = sid then { s with status := "completed", scores := sc, total_score := tot } else s)
  | abandon (l : List Session) (sid : Nat)
      (htarget : ∀ s ∈ l, s.id = sid → s.status = "active") :
      SessStep l (l.map fun s =>
        if s.id = sid then { s with status := "abandoned" } else s)
  | insert (l : List Session) (s : Session)
      (hst : s.status = "active") (hm : s.messages = [])
      (hfresh : ∀ s0 ∈ l, ¬ (s0.candidate_id = s.candidate_id ∧ s0.status = "active")) :
      SessStep l (l ++ [s])

/-- Reachability of one session collection from another through the
engine's atomic writes. -/
def SessEvol : List Session → List Session → Prop :=
  Relation.ReflTransGen SessStep

lemma SessEvol.refl (l : List Session) : SessEvol l l :=
  Relation.ReflTransGen.refl

lemma SessEvol.trans {a b c : List Session} (h1 : SessEvol a b) (h2 : SessEvol b c) :
    SessEvol a c :=
  Relation.ReflTransGen.trans h1 h2

lemma SessEvol.single {a b : List Session} (h : SessStep a b) : SessEvol a b :=
  Relation.ReflTransGen.single h

/-- Status trichotomy is preserved by every atomic write. -/
lemma SessStep.statusOk_preserved {a b : List Session} (h : SessStep a b)
    (ha : ∀ s ∈ a, statusOk s.status) : ∀ s ∈ b, statusOk s.status := by
  cases h with
  | push sid m hrole =>
    intro s hs
    obtain ⟨s0, hs0, rfl⟩ := List.mem_map.mp hs
    by_cases hid : s0.id = sid <;> simp [hid] <;> exact ha s0 hs0
  | complete sid sc tot htarget =>
    intro s hs
    obtain ⟨s0, hs0, rfl⟩ := List.mem_map.mp hs
    by_cases hid : s0.id = sid
    · simp [hid, statusOk]
    · simp [hid]; exact ha s0 hs0
  | abandon sid htarget =>
    intro s hs
    obtain ⟨s0, hs0, rfl⟩ := List.mem_map.mp hs
    by_cases hid : s0.id = sid
    · simp [hid, statusOk]
    · simp [hid]; exact ha s0 hs0
  | insert s hst hm hfresh =>
    intro s1 hs1
    rcases List.mem_append.mp hs1 with h1 | h1
    · exact ha s1 h1
    · simp at h1
      subst h1
      exact Or.inl hst

lemma SessEvol.statusOk_closure {a b : List Session} (h : SessEvol a b)
    (ha : ∀ s ∈ a, statusOk s.status) : ∀ s ∈ b, statusOk s.status := by
  induction h with
  | refl => exact ha
  | tail _step hstep ih => exact hstep.statusOk_preserved ih

/-- Message roles `user`/`assistant` are the only roles ever written to a
stored log; preserved by every atomic write. -/
def rolesOk (l : List Session) : Prop :=
  ∀ s ∈ l, ∀ m ∈ s.messages, m.role = "user" ∨ m.role = "assistant"

lemma SessStep.rolesOk_preserved {a b : List Session} (h : SessStep a b)
    (ha : rolesOk a) : rolesOk b := by
  cases h with
  | push sid m hrole =>
    intro s hs
    obtain ⟨s0, hs0, rfl⟩ := List.mem_map.mp hs
    by_cases hid : s0.id = sid
    · simp [hid]
      intro m1 hm1
      rcases hm1 with h1 | h1
      · exact ha s0 hs0 m1 h1
      · subst h1; exact hrole
    · simp [hid]; exact ha s0 hs0
  | complete sid sc tot htarget =>
    intro s hs
    obtain ⟨s0, hs0, rfl⟩ := List.mem_map.mp hs
    by_cases hid : s0.id = sid <;> simp [hid] <;> exact ha s0 hs0
  | abandon sid htarget =>
    intro s hs
    obtain ⟨s0, hs0, rfl⟩ := List.mem_map.mp hs
    by_cases hid : s0.id = sid <;> simp [hid] <;> exact ha s0 hs0
  | insert s hst hm hfresh =>
    intro s1 hs1
    rcases List.mem_append.mp hs1 with h1 | h1
    · exact ha s1 h1
    · simp at h1
      subst h1
      simp [hm]

lemma SessEvol.rolesOk_closure {a b : List Session} (h : SessEvol a b)
    (ha : rolesOk a) : rolesOk b := by
  induction h with
  | refl => exact ha
  | tail _step hstep ih => exact hstep.rolesOk_preserved ih

/-- Predicate selecting the active sessions of candidate `cid`. -/
def activeFor (cid : Nat) : Session → Bool :=
  fun s => decide (s.candidate_id = cid ∧ s.status = "active")

/-- Number of active sessions of candidate `cid`. -/
def activeCount (l : List Session) (cid : Nat) : Nat :=
  l.countP (activeFor cid)

lemma countP_map_eq (p : Session → Bool) (f : Session → Session)
    (hf : ∀ s, p (f s) = p s) (l : List Session) :
    (l.map f).countP p = l.countP p := by
  induction l with
  | nil => simp
  | cons x xs ih => simp [List.countP_cons, hf, ih]

lemma countP_map_le (p : Session → Bool) (f : Session → Session)
    (hf : ∀ s, p (f s) = true → p s = true) (l : List Session) :
    (l.map f).countP p ≤ l.countP p := by
  rw [List.countP_map]
  exact List.countP_mono_left (fun s _ h => hf s h)

/-- Every atomic write preserves "at most one active session per
candidate". -/
lemma SessStep.activeCount_le {a b : List Session} (h : SessStep a b)
    (cid : Nat) (ha : activeCount a cid ≤ 1) : activeCount b cid ≤ 1 := by
  simp only [activeCount] at ha ⊢
  cases h with
  | push sid m hrole =>
    have heq : ∀ s, activeFor cid (if s.id = sid then
        { s with messages := s.messages ++ [m] } else s) = activeFor cid s := by
      intro s
      by_cases hid : s.id = sid <;> simp [hid, activeFor]
    calc (a.map _).countP (activeFor cid) = a.countP (activeFor cid) :=
          countP_map_eq _ _ heq a
      _ ≤ 1 := ha
  | complete sid sc tot htarget =>
    refine le_trans (countP_map_le _ _ ?_ a) ha
    intro s hs
    by_cases hid : s.id = sid
    · simp [hid, activeFor] at hs
    · simpa [hid] using hs
  | abandon sid htarget =>
    refine le_trans (countP_map_le _ _ ?_ a) ha
    intro s hs
    by_cases hid : s.id = sid
    · simp [hid, activeFor] at hs
    · simpa [hid] using hs
  | insert s hst hm hfresh =>
    rw [List.countP_append]
    by_cases hs : activeFor cid s = true
    · have hzero : a.countP (activeFor cid) = 0 := by
        rw [List.countP_eq_zero]
        intro s0 hs0
        simp only [activeFor, decide_eq_true_eq] at hs ⊢
        intro hcontra
        exact hfresh s0 hs0 ⟨by rw [hcontra.1, hs.1], hcontra.2⟩
      simp [hzero, List.countP_cons, hs]
    · simp only [Bool.not_eq_true] at hs
      simp [List.countP_cons, hs]
      omega

lemma SessEvol.activeCount_le_closure {a b : List Session} (h : SessEvol a b)
    (cid : Nat) (ha : activeCount a cid ≤ 1) : activeCount b cid ≤ 1 := by
  induction h with
  | refl => exact ha
  | tail _step hstep ih => exact hstep.activeCount_le cid ih

/-- Positional status-transition correctness between two collections. -/
def transitionsOk (a b : List Session) : Prop :=
  a.length ≤ b.length ∧
  ∀ i (h : i < a.length) (h2 : i < b.length),
    transitionOk (a.get ⟨i, h⟩).status (b.get ⟨i, h2⟩).status

lemma transitionOk_rfl (st : String) : transitionOk st st := Or.inl rfl

lemma transitionOk_trans {x y z : String} (h1 : transitionOk x y)
    (h2 : transitionOk y z) : transitionOk x z := by
  rcases h1 with h1 | ⟨hx, hy⟩
  · rcases h2 with h2 | ⟨hy, hz⟩
    · exact Or.inl (h2.trans h1)
    · exact Or.inr ⟨h1 ▸ hy, hz⟩
  · rcases h2 with h2 | ⟨hy2, _⟩
    · exact Or.inr ⟨hx, h2 ▸ hy⟩
    · rcases hy with hy | hy <;> rw [hy] at hy2 <;> simp at hy2

/-- Every atomic write performs only legal status transitions, position by
position. -/
lemma SessStep.transitionsOk {a b : List Session} (h : SessStep a b) :
    transitionsOk a b := by
  cases h with
  | push sid m hrole =>
    refine ⟨by simp, ?_⟩
    intro i hi hi2
    simp only [List.get_eq_getElem, List.getElem_map]
    by_cases hid : a[i].id = sid
    · rw [if_pos hid]; exact Or.inl rfl
    · rw [if_neg hid]; exact Or.inl rfl
  | complete sid sc tot htarget =>
    refine ⟨by simp, ?_⟩
    intro i hi hi2
    simp only [List.get_eq_getElem, List.getElem_map]
    by_cases hid : a[i].id = sid
    · rw [if_pos hid]
      rcases htarget _ (List.getElem_mem hi) hid with hst | hst
      · exact Or.inr ⟨hst, Or.inl rfl⟩
      · exact Or.inl hst.symm
    · rw [if_neg hid]; exact Or.inl rfl
  | abandon sid htarget =>
    refine ⟨by simp, ?_⟩
    intro i hi hi2
    simp only [List.get_eq_getElem, List.getElem_map]
    by_cases hid : a[i].id = sid
    · rw [if_pos hid]
      exact Or.inr ⟨htarget _ (List.getElem_mem hi) hid, Or.inr rfl⟩
    · rw [if_neg hid]; exact Or.inl rfl
  | insert s hst hm hfresh =>
    refine ⟨by simp, ?_⟩
    intro i hi hi2
    simp only [List.get_eq_getElem]
    rw [List.getElem_append_left hi]
    exact Or.inl rfl

lemma SessEvol.transitionsOk_closure {a b : List Session} (h : SessEvol a b) :
    transitionsOk a b := by
  induction h with
  | refl => exact ⟨le_refl _, fun i h h2 => transitionOk_rfl _⟩
  | tail step hstep ih =>
    obtain ⟨hlen1, htr1⟩ := ih
    obtain ⟨hlen2, htr2⟩ := hstep.transitionsOk
    refine ⟨le_trans hlen1 hlen2, ?_⟩
    intro i hi hi2
    have hmid : i < _ := lt_of_lt_of_le hi hlen1
    exact transitionOk_trans (htr1 i hi hmid) (htr2 i hmid hi2)

/-! ## Characterization lemmas for the scoring / completion flow -/

/-- The scoring-result object `evaluate_interview` ends up with, as a
function of the scoring oracle alone. -/
def scoringResultOf (oracle : Except String ScoreResp) : List (String × Json) :=
  match oracle with
  | .error _ => failDict
  | .ok resp =>
    match resp.parsed with
    | .error _ => failDict
    | .ok result => result

/-- The database after the usage-logging performed by
`evaluate_interview`. -/
def scoringLogDB (db : DB) (session : Session)
    (oracle : Except String ScoreResp) : DB :=
  match oracle with
  | .error _ => db
  | .ok resp => usageLogDB db session.candidate_id "scoring" resp.usage

@[simp] lemma log_token_usage_sessions (db : DB) (u : Usage) (cid : Nat) (t : String) :
    (log_token_usage db u cid t).interview_sessions = db.interview_sessions := by
  unfold log_token_usage
  cases db.candidates.find? (fun c => decide (c.id = cid)) <;> rfl

@[simp] lemma log_token_usage_pipelines (db : DB) (u : Usage) (cid : Nat) (t : String) :
    (log_token_usage db u cid t).pipelines = db.pipelines := by
  unfold log_token_usage
  cases db.candidates.find? (fun c => decide (c.id = cid)) <;> rfl

@[simp] lemma usageLogDB_sessions (db : DB) (cid : Nat) (tag : String) (u : Option Usage) :
    (usageLogDB db cid tag u).interview_sessions = db.interview_sessions := by
  cases u <;> simp [usageLogDB]

@[simp] lemma usageLogDB_pipelines (db : DB) (cid : Nat) (tag : String) (u : Option Usage) :
    (usageLogDB db cid tag u).pipelines = db.pipelines := by
  cases u <;> simp [usageLogDB]

@[simp] lemma pushMsg_pipelines (db : DB) (sid : Nat) (m : Msg) :
    (pushMsg db sid m).pipelines = db.pipelines := rfl

@[simp] lemma pushMsg_sessions (db : DB) (sid : Nat) (m : Msg) :
    (pushMsg db sid m).interview_sessions
      = db.interview_sessions.map (fun s =>
          if s.id = sid then { s with messages := s.messages ++ [m] } else s) := rfl

@[simp] lemma scoringLogDB_sessions (db : DB) (session : Session)
    (oracle : Except String ScoreResp) :
    (scoringLogDB db session oracle).interview_sessions = db.interview_sessions := by
  unfold scoringLogDB
  cases oracle with
  | error e => rfl
  | ok resp => simp

@[simp] lemma scoringLogDB_pipelines (db : DB) (session : Session)
    (oracle : Except String ScoreResp) :
    (scoringLogDB db session oracle).pipelines = db.pipelines := by
  unfold scoringLogDB
  cases oracle with
  | error e => rfl
  | ok resp => simp

@[simp] lemma completeUpdate_sessions (db : DB) (sid : Nat) (sc tot : Json) :
    (completeUpdate db sid sc tot).interview_sessions
      = db.interview_sessions.map (fun s =>
          if s.id = sid then
            { s with status := "completed", scores := sc, total_score := tot }
          else s) := rfl

@[simp] lemma markCandidateCompleted_sessions (db : DB) (cid : Nat) :
    (markCandidateCompleted db cid).interview_sessions = db.interview_sessions := rfl

/-- On a session whose pipeline exists, `evaluate_interview` returns the
oracle-determined result together with the usage-logged database. -/
lemma evaluate_interview_eq (db : DB) (session : Session)
    (oracle : Except String ScoreResp) (p : Pipeline)
    (hp : db.pipelines.find? (fun q => decide (q.id = session.pipeline_id)) = some p) :
    evaluate_interview db session oracle
      = .ok (scoringResultOf oracle) (scoringLogDB db session oracle) := by
  unfold evaluate_interview scoringResultOf scoringLogDB
  rw [hp]
  cases oracle with
  | error e => rfl
  | ok resp =>
    cases hu : resp.usage <;> cases hparse : resp.parsed <;> simp [hu, hparse]

/-- On a session whose pipeline is missing, `evaluate_interview` raises
(and so does `complete_interview`, leaving the database untouched). -/
lemma complete_interview_raised (db : DB) (session : Session)
    (oracle : Except String ScoreResp) (a : Except String Unit)
    (hp : db.pipelines.find? (fun q => decide (q.id = session.pipeline_id)) = none) :
    complete_interview db session oracle a
      = .raised "AttributeError: 'NoneType' object has no attribute 'get'" db := by
  unfold complete_interview evaluate_interview
  rw [hp]

/-- On a session whose pipeline exists, `complete_interview` always
completes: it closes the session with the oracle-determined scores and
marks the candidate, whatever the Airtable configuration or outcome. -/
lemma complete_after_done (db1 : DB) (r : List (String × Json))
    (session : Session) (a : Except String Unit) :
    complete_after db1 r session a
      = .done (markCandidateCompleted
          (completeUpdate db1 session.id
            (dictGet r "scores" (.arr []))
            (dictGet r "total_score" (.num 0)))
          session.candidate_id) := by
  unfold complete_after
  dsimp only
  repeat' first
    | rfl
    | split

lemma complete_interview_done (db : DB) (session : Session)
    (oracle : Except String ScoreResp) (a : Except String Unit) (p : Pipeline)
    (hp : db.pipelines.find? (fun q => decide (q.id = session.pipeline_id)) = some p) :
    complete_interview db session oracle a
      = .done (markCandidateCompleted
          (completeUpdate (scoringLogDB db session oracle) session.id
            (dictGet (scoringResultOf oracle) "scores" (.arr []))
            (dictGet (scoringResultOf oracle) "total_score" (.num 0)))
          session.candidate_id) := by
  unfold complete_interview
  rw [evaluate_interview_eq db session oracle p hp]
  exact complete_after_done _ _ _ _

/-! ## Well-formed databases and reachability of the atomic writes -/

/-- Well-formedness of the stored session collection: ids are unique and
below the id counter (true of every state MongoDB actually produces, since
`_id`s are generated fresh on insert). -/
def wfDB (db : DB) : Prop :=
  (∀ s ∈ db.interview_sessions, s.id < db.nextSessionId) ∧
  (db.interview_sessions.map Session.id).Nodup

/-- With unique ids, two stored sessions with the same id coincide. -/
lemma mem_id_unique {l : List Session} (hnodup : (l.map Session.id).Nodup)
    {x s : Session} (hx : x ∈ l) (hs : s ∈ l) (h : s.id = x.id) : s = x :=
  List.inj_on_of_nodup_map hnodup hs hx h

/-- The greeting step rewrites the collection by a map that fixes id,
status and candidate. -/
lemma greeting_sessions_shape (db : DB) (s : Session)
    (g : Except String LLMResponse) :
    ∃ f : Session → Session,
      (∀ x, (f x).id = x.id ∧ (f x).status = x.status ∧
            (f x).candidate_id = x.candidate_id) ∧
      (generate_initial_greeting db s g).interview_sessions
        = db.interview_sessions.map f := by
  unfold generate_initial_greeting
  have hid : ∀ (m : Msg) (x : Session),
      ((if x.id = s.id then { x with messages := x.messages ++ [m] } else x) : Session).id = x.id ∧
      ((if x.id = s.id then { x with messages := x.messages ++ [m] } else x) : Session).status = x.status ∧
      ((if x.id = s.id then { x with messages := x.messages ++ [m] } else x) : Session).candidate_id = x.candidate_id := by
    intro m x
    by_cases hx : x.id = s.id <;> simp [hx]
  cases g with
  | error e =>
    exact ⟨_, fun x => hid _ x, rfl⟩
  | ok resp =>
    obtain ⟨⟨content, tcs⟩, usage⟩ := resp
    dsimp only
    cases content with
    | none =>
      refine ⟨fun x => if x.id = s.id then
          { x with messages := x.messages
              ++ [apologyMsg "TypeError: 'NoneType' object is not subscriptable"] }
        else x,
        fun x => hid _ x, ?_⟩
      simp
    | some c =>
      dsimp only
      by_cases hcc : c = ""
      · rw [if_pos hcc]
        refine ⟨fun x => x, by simp, ?_⟩
        simp
      · rw [if_neg hcc]
        refine ⟨fun x => if x.id = s.id then
            { x with messages := x.messages ++ [{ role := "assistant", content := some c }] }
          else x,
          fun x => hid _ x, ?_⟩
        simp

/-- The greeting step is made of legal atomic writes. -/
lemma greeting_sessEvol (db : DB) (s : Session) (g : Except String LLMResponse) :
    SessEvol db.interview_sessions
      (generate_initial_greeting db s g).interview_sessions := by
  unfold generate_initial_greeting
  cases g with
  | error e =>
    exact SessEvol.single (SessStep.push _ s.id _ (Or.inr rfl))
  | ok resp =>
    obtain ⟨⟨content, tcs⟩, usage⟩ := resp
    dsimp only
    cases content with
    | none =>
      refine SessEvol.single ?_
      have h := SessStep.push db.interview_sessions s.id
        (apologyMsg "TypeError: 'NoneType' object is not subscriptable") (Or.inr rfl)
      simpa using h
    | some c =>
      dsimp only
      by_cases hcc : c = ""
      · rw [if_pos hcc]
        have h : (usageLogDB db s.candidate_id "greeting" usage).interview_sessions
            = db.interview_sessions := by simp
        rw [h]
        exact SessEvol.refl _
      · rw [if_neg hcc]
        refine SessEvol.single ?_
        have h := SessStep.push db.interview_sessions s.id
          ({ role := "assistant", content := some c } : Msg) (Or.inr rfl)
        simpa using h

/-- Well-formedness is preserved by an id-preserving map of the
collection. -/
lemma wf_map_preserve (db : DB) (f : Session → Session)
    (hfid : ∀ s, (f s).id = s.id) (hwf : wfDB db) :
    wfDB { db with interview_sessions := db.interview_sessions.map f } := by
  obtain ⟨hlt, hnodup⟩ := hwf
  constructor
  · intro s hs
    obtain ⟨s0, hs0, rfl⟩ := List.mem_map.mp hs
    rw [hfid s0]
    exact hlt s0 hs0
  · have : (db.interview_sessions.map f).map Session.id
        = db.interview_sessions.map Session.id := by
      rw [List.map_map]
      exact List.map_congr_left (fun s _ => hfid s)
    simpa [this]

@[simp] lemma pushMsg_nextSessionId (db : DB) (sid : Nat) (m : Msg) :
    (pushMsg db sid m).nextSessionId = db.nextSessionId := rfl

@[simp] lemma log_token_usage_nextSessionId (db : DB) (u : Usage) (cid : Nat) (t : String) :
    (log_token_usage db u cid t).nextSessionId = db.nextSessionId := by
  unfold log_token_usage
  cases db.candidates.find? (fun c => decide (c.id = cid)) <;> rfl

@[simp] lemma usageLogDB_nextSessionId (db : DB) (cid : Nat) (tag : String) (u : Option Usage) :
    (usageLogDB db cid tag u).nextSessionId = db.nextSessionId := by
  cases u <;> simp [usageLogDB]

lemma greeting_nextSessionId (db : DB) (s : Session) (g : Except String LLMResponse) :
    (generate_initial_greeting db s g).nextSessionId = db.nextSessionId := by
  unfold generate_initial_greeting
  cases g with
  | error e => simp
  | ok resp =>
    obtain ⟨⟨content, tcs⟩, usage⟩ := resp
    dsimp only
    cases content with
    | none => simp
    | some c =>
      dsimp only
      by_cases hcc : c = "" <;> simp [hcc]

lemma wf_greeting (db : DB) (s : Session) (g : Except String LLMResponse)
    (hwf : wfDB db) : wfDB (generate_initial_greeting db s g) := by
  obtain ⟨f, hf, hsess⟩ := greeting_sessions_shape db s g
  have h2 : wfDB { db with interview_sessions := db.interview_sessions.map f } :=
    wf_map_preserve db f (fun x => (hf x).1) hwf
  constructor
  · intro x hx
    rw [hsess] at hx
    rw [greeting_nextSessionId]
    exact h2.1 x hx
  · rw [hsess]
    exact h2.2

lemma wf_insert (db : DB) (sess : Session) (hid : sess.id = db.nextSessionId)
    (hwf : wfDB db) :
    wfDB { db with interview_sessions := db.interview_sessions ++ [sess]
                   nextSessionId := db.nextSessionId + 1 } := by
  obtain ⟨hlt, hnodup⟩ := hwf
  constructor
  · intro s hs
    rcases List.mem_append.mp hs with h | h
    · have := hlt s h
      simp only []
      omega
    · simp at h
      subst h
      simp only []
      omega
  · simp only [List.map_append, List.map_cons, List.map_nil]
    refine List.Nodup.append hnodup (List.nodup_singleton _) ?_
    intro a ha hb
    simp at hb
    obtain ⟨x, hx, rfl⟩ := List.mem_map.mp ha
    have := hlt x hx
    omega

lemma map_id_status_active {l : List Session} {f : Session → Session}
    (hf : ∀ x, (f x).id = x.id ∧ (f x).status = x.status)
    {tid : Nat}
    (hl : ∀ x ∈ l, x.id = tid → x.status = "active") :
    ∀ s0 ∈ l.map f, s0.id = tid → s0.status = "active" := by
  intro s0 hs0 hid
  obtain ⟨x, hx, rfl⟩ := List.mem_map.mp hs0
  rw [(hf x).2]
  exact hl x hx (by rw [← (hf x).1]; exact hid)

lemma all_id_active_of_uniq {l : List Session} (hnodup : (l.map Session.id).Nodup)
    {x : Session} (hx : x ∈ l) (hxa : x.status = "active") :
    ∀ s0 ∈ l, s0.id = x.id → s0.status = "active" := by
  intro s0 hs0 hid
  rw [mem_id_unique hnodup hx hs0 hid]
  exact hxa

lemma heal_sessEvol (db : DB) (existing : Session) (g : Except String LLMResponse) :
    SessEvol db.interview_sessions
      ((create_heal db existing g).2).interview_sessions := by
  unfold create_heal
  by_cases hv : validSessionDoc existing = true
  · rw [if_neg (by simp [hv])]
    dsimp only
    split
    · exact greeting_sessEvol db existing g
    · split
      · exact greeting_sessEvol db existing g
      · exact greeting_sessEvol db existing g
  · rw [if_pos (by simp [hv])]
    exact SessEvol.refl _

lemma existing_sessEvol (db : DB) (existing : Session) (g : Except String LLMResponse) :
    SessEvol db.interview_sessions
      ((create_existing db existing g).2).interview_sessions := by
  unfold create_existing
  by_cases hemp : existing.messages.isEmpty = true
  · rw [if_pos hemp]
    exact heal_sessEvol db existing g
  · rw [if_neg hemp]
    by_cases hv : validSessionDoc existing = true
    · rw [if_neg (by simp [hv])]
      exact SessEvol.refl _
    · rw [if_pos (by simp [hv])]
      exact SessEvol.refl _

lemma fresh_sessEvol (db : DB) (cid pid : Nat) (p : String) (c : Option String)
    (g : Except String LLMResponse)
    (hfresh : ∀ s0 ∈ db.interview_sessions,
      ¬ (s0.candidate_id = cid ∧ s0.status = "active")) :
    SessEvol db.interview_sessions
      ((create_fresh db cid pid p c g).2).interview_sessions := by
  unfold create_fresh
  have hstep : SessStep db.interview_sessions
      (db.interview_sessions ++ [newSession db cid pid p c]) :=
    SessStep.insert _ _ rfl rfl hfresh
  have hall : SessEvol db.interview_sessions
      ((generate_initial_greeting
        { db with
          interview_sessions := db.interview_sessions ++ [newSession db cid pid p c]
          nextSessionId := db.nextSessionId + 1 }
        (newSession db cid pid p c) g).interview_sessions) := by
    refine SessEvol.trans (SessEvol.single hstep) ?_
    exact greeting_sessEvol
      { db with
        interview_sessions := db.interview_sessions ++ [newSession db cid pid p c]
        nextSessionId := db.nextSessionId + 1 }
      (newSession db cid pid p c) g
  dsimp only
  split
  · exact hall
  · split
    · exact hall
    · exact hall

/-- Every path through `create_session` is a chain of legal atomic
writes. -/
lemma create_sessEvol (db : DB) (cid : Nat) (p : String) (c : Option String)
    (g : Except String LLMResponse) :
    SessEvol db.interview_sessions
      ((create_session db cid p c g).2).interview_sessions := by
  unfold create_session
  cases hcand : db.candidates.find? (fun c0 => decide (c0.id = cid)) with
  | none => exact SessEvol.refl _
  | some cand =>
    dsimp only
    cases hpipe : db.pipelines.find? (fun p0 => decide (p0.id = cand.pipeline_id)) with
    | none => exact SessEvol.refl _
    | some pipe =>
      dsimp only
      cases hex : db.interview_sessions.find?
          (fun s => decide (s.candidate_id = cid ∧ s.status = "active")) with
      | some existing => exact existing_sessEvol db existing g
      | none =>
        refine fresh_sessEvol db cid cand.pipeline_id p c g ?_
        intro s0 hs0
        have := List.find?_eq_none.mp hex s0 hs0
        simpa using this

lemma heal_ok_active (db : DB) (existing : Session) (g : Except String LLMResponse)
    (s : Session) (dbOut : DB)
    (hnodup : (db.interview_sessions.map Session.id).Nodup)
    (hmem : existing ∈ db.interview_sessions)
    (hact : existing.status = "active")
    (h : create_heal db existing g = (.ok s, dbOut)) :
    ∀ s0 ∈ dbOut.interview_sessions, s0.id = s.id → s0.status = "active" := by
  unfold create_heal at h
  by_cases hv : validSessionDoc existing = true
  · rw [if_neg (by simp [hv])] at h
    dsimp only at h
    obtain ⟨f, hf, hsess⟩ := greeting_sessions_shape db existing g
    cases hre : (generate_initial_greeting db existing g).interview_sessions.find?
        (fun x => decide (x.id = existing.id)) with
    | none => rw [hre] at h; simp at h
    | some r =>
      rw [hre] at h
      dsimp only at h
      by_cases hvr : validSessionDoc r = true
      · rw [if_neg (by simp [hvr])] at h
        simp only [Prod.mk.injEq, CreateResult.ok.injEq] at h
        obtain ⟨rfl, rfl⟩ := h
        have hrid : r.id = existing.id := by
          have := List.find?_some hre
          simpa using this
        rw [hsess]
        have hl := all_id_active_of_uniq hnodup hmem hact
        exact map_id_status_active (fun x => ⟨(hf x).1, (hf x).2.1⟩)
          (fun x hx hxid => hl x hx (by rw [← hrid]; exact hxid))
      · rw [if_pos (by simp [hvr])] at h
        simp at h
  · rw [if_pos (by simp [hv])] at h
    simp at h

lemma existing_ok_active (db : DB) (existing : Session) (g : Except String LLMResponse)
    (s : Session) (dbOut : DB)
    (hnodup : (db.interview_sessions.map Session.id).Nodup)
    (hmem : existing ∈ db.interview_sessions)
    (hact : existing.status = "active")
    (h : create_existing db existing g = (.ok s, dbOut)) :
    ∀ s0 ∈ dbOut.interview_sessions, s0.id = s.id → s0.status = "active" := by
  unfold create_existing at h
  by_cases hemp : existing.messages.isEmpty = true
  · rw [if_pos hemp] at h
    exact heal_ok_active db existing g s dbOut hnodup hmem hact h
  · rw [if_neg hemp] at h
    by_cases hv : validSessionDoc existing = true
    · rw [if_neg (by simp [hv])] at h
      simp only [Prod.mk.injEq, CreateResult.ok.injEq] at h
      obtain ⟨rfl, rfl⟩ := h
      exact all_id_active_of_uniq hnodup hmem hact
    · rw [if_pos (by simp [hv])] at h
      simp at h

lemma fresh_ok_active (db : DB) (cid pid : Nat) (p : String) (c : Option String)
    (g : Except String LLMResponse) (s : Session) (dbOut : DB)
    (hwf : wfDB db)
    (h : create_fresh db cid pid p c g = (.ok s, dbOut)) :
    ∀ s0 ∈ dbOut.interview_sessions, s0.id = s.id → s0.status = "active" := by
  unfold create_fresh at h
  dsimp only at h
  have hwf1 : wfDB { db with
      interview_sessions := db.interview_sessions ++ [newSession db cid pid p c]
      nextSessionId := db.nextSessionId + 1 } :=
    wf_insert db (newSession db cid pid p c) rfl hwf
  obtain ⟨f, hf, hsess⟩ := greeting_sessions_shape
    { db with
      interview_sessions := db.interview_sessions ++ [newSession db cid pid p c]
      nextSessionId := db.nextSessionId + 1 }
    (newSession db cid pid p c) g
  cases hre : (generate_initial_greeting
      { db with
        interview_sessions := db.interview_sessions ++ [newSession db cid pid p c]
        nextSessionId := db.nextSessionId + 1 }
      (newSession db cid pid p c) g).interview_sessions.find?
        (fun x => decide (x.id = (newSession db cid pid p c).id)) with
  | none => rw [hre] at h; simp at h
  | some r =>
    rw [hre] at h
    dsimp only at h
    by_cases hvr : validSessionDoc r = true
    · rw [if_neg (by simp [hvr])] at h
      simp only [Prod.mk.injEq, CreateResult.ok.injEq] at h
      obtain ⟨rfl, rfl⟩ := h
      have hrid : r.id = (newSession db cid pid p c).id := by
        have := List.find?_some hre
        simpa using this
      rw [hsess]
      have hmemNew : newSession db cid pid p c ∈
          ({ db with
            interview_sessions := db.interview_sessions ++ [newSession db cid pid p c]
            nextSessionId := db.nextSessionId + 1 } : DB).interview_sessions := by
        simp
      have hl := all_id_active_of_uniq hwf1.2 hmemNew rfl
      exact map_id_status_active (fun x => ⟨(hf x).1, (hf x).2.1⟩)
        (fun x hx hxid => hl x hx (by rw [← hrid]; exact hxid))
    · rw [if_pos (by simp [hvr])] at h
      simp at h

/-- Under a well-formed database, every session a successful
`create_session` returns is the unique stored session with its id, and that
session (with every stored twin) is active. -/
lemma create_session_ok_active (db : DB) (cid : Nat) (p : String)
    (c : Option String) (g : Except String LLMResponse) (s : Session) (dbOut : DB)
    (hwf : wfDB db)
    (h : create_session db cid p c g = (.ok s, dbOut)) :
    ∀ s0 ∈ dbOut.interview_sessions, s0.id = s.id → s0.status = "active" := by
  unfold create_session at h
  cases hcand : db.candidates.find? (fun c0 => decide (c0.id = cid)) with
  | none => rw [hcand] at h; simp at h
  | some cand =>
    rw [hcand] at h
    dsimp only at h
    cases hpipe : db.pipelines.find? (fun p0 => decide (p0.id = cand.pipeline_id)) with
    | none => rw [hpipe] at h; simp at h
    | some pipe =>
      rw [hpipe] at h
      dsimp only at h
      cases hex : db.interview_sessions.find?
          (fun x => decide (x.candidate_id = cid ∧ x.status = "active")) with
      | some existing =>
        rw [hex] at h
        dsimp only at h
        have hmem := List.mem_of_find?_eq_some hex
        have hact : existing.status = "active" := by
          have := List.find?_some hex
          simp at this
          exact this.2
        exact existing_ok_active db existing g s dbOut hwf.2 hmem hact h
      | none =>
        rw [hex] at h
        dsimp only at h
        exact fresh_ok_active db cid cand.pipeline_id p c g s dbOut hwf h

/-- The database carried by a `toolLoop` outcome. -/
def loopDB : LoopOut → DB
  | .finished _ d => d
  | .completedNow d => d
  | .raised _ d => d

/-- The tool loop writes to the session store only through
`complete_interview`; its database is reachable by legal atomic writes
whenever every stored twin of the session is still active or completed. -/
lemma toolLoop_sessEvol (session : Session) (sc : Except String ScoreResp)
    (a : Except String Unit) (tcs : List ToolCall) (msgs : List Msg) (db : DB)
    (htarget : ∀ s ∈ db.interview_sessions, s.id = session.id →
      s.status = "active" ∨ s.status = "completed") :
    SessEvol db.interview_sessions
      (loopDB (toolLoop session sc a tcs msgs db)).interview_sessions := by
  induction tcs generalizing msgs with
  | nil => exact SessEvol.refl _
  | cons tc rest ih =>
    simp only [toolLoop]
    cases hargs : tc.argsParse with
    | error e => exact SessEvol.refl _
    | ok args =>
      dsimp only
      by_cases hend : tc.function_name = "end_interview"
      · rw [if_pos hend]
        cases hpipe : db.pipelines.find? (fun q => decide (q.id = session.pipeline_id)) with
        | none =>
          rw [complete_interview_raised db session sc a hpipe]
          exact SessEvol.refl _
        | some p =>
          rw [complete_interview_done db session sc a p hpipe]
          refine SessEvol.single ?_
          have hstep := SessStep.complete db.interview_sessions session.id
            (dictGet (scoringResultOf sc) "scores" (.arr []))
            (dictGet (scoringResultOf sc) "total_score" (.num 0)) htarget
          simpa [loopDB] using hstep
      · rw [if_neg hend]
        exact ih _

/-- Every path through `process_message` is a chain of legal atomic
writes (well-formedness rules out a stored twin of the session with a
terminal status). -/
lemma process_sessEvol (db : DB) (sid : Nat) (t : String) (o : TurnOracle)
    (hwf : wfDB db) :
    SessEvol db.interview_sessions
      ((process_message db sid t o).2).interview_sessions := by
  obtain ⟨llm1, llm2, scoring, airtable⟩ := o
  unfold process_message
  cases hfind : db.interview_sessions.find? (fun s => decide (s.id = sid)) with
  | none => exact SessEvol.refl _
  | some sdata =>
    dsimp only
    by_cases hv : validSessionDoc sdata = true
    swap
    · rw [if_pos (by simp [hv])]
      exact SessEvol.refl _
    rw [if_neg (by simp [hv])]
    by_cases hst : sdata.status = "completed"
    · rw [if_pos hst]
      exact SessEvol.refl _
    rw [if_neg hst]
    have hstep1 : SessStep db.interview_sessions
        (pushMsg db sid ({ role := "user", content := some t } : Msg)).interview_sessions := by
      simpa using SessStep.push db.interview_sessions sid
        ({ role := "user", content := some t } : Msg) (Or.inl rfl)
    cases llm1 with
    | error e => exact SessEvol.single hstep1
    | ok response =>
      obtain ⟨⟨content, tool_calls⟩, usage⟩ := response
      dsimp only
      have hevol2 : SessEvol db.interview_sessions
          (usageLogDB (pushMsg db sid ({ role := "user", content := some t } : Msg))
            sdata.candidate_id "chat" usage).interview_sessions := by
        have h : (usageLogDB (pushMsg db sid ({ role := "user", content := some t } : Msg))
            sdata.candidate_id "chat" usage).interview_sessions
            = (pushMsg db sid ({ role := "user", content := some t } : Msg)).interview_sessions := by
          simp
        rw [h]
        exact SessEvol.single hstep1
      by_cases htc : tool_calls.isEmpty = true
      · rw [if_pos htc]
        cases content with
        | none => exact hevol2
        | some cc =>
          dsimp only
          by_cases hcc : cc = ""
          · rw [if_pos hcc]
            exact hevol2
          · rw [if_neg hcc]
            refine SessEvol.trans hevol2 (SessEvol.single ?_)
            have h2 := SessStep.push
              (usageLogDB (pushMsg db sid ({ role := "user", content := some t } : Msg))
                sdata.candidate_id "chat" usage).interview_sessions sid
              ({ role := "assistant", content := some cc } : Msg) (Or.inr rfl)
            simpa using h2
      · rw [if_neg htc]
        have hsid : sdata.id = sid := by
          have := List.find?_some hfind
          simpa using this
        have hmem := List.mem_of_find?_eq_some hfind
        have hact : sdata.status = "active" := by
          simp only [validSessionDoc, Bool.and_eq_true, Bool.or_eq_true,
            decide_eq_true_eq] at hv
          rcases hv.1.1 with h | h
          · exact h
          · exact absurd h hst
        have htarget2 : ∀ s0 ∈ (usageLogDB
            (pushMsg db sid ({ role := "user", content := some t } : Msg))
            sdata.candidate_id "chat" usage).interview_sessions,
            s0.id = sdata.id → s0.status = "active" ∨ s0.status = "completed" := by
          simp only [usageLogDB_sessions, pushMsg_sessions]
          intro s0 hs0 hid0
          obtain ⟨x, hx, rfl⟩ := List.mem_map.mp hs0
          by_cases hxid : x.id = sid
          · simp only [hxid, if_true] at hid0 ⊢
            have : x = sdata := mem_id_unique hwf.2 hmem hx (by simpa [hxid] using hid0)
            subst this
            exact Or.inl hact
          · simp only [hxid, if_false] at hid0 ⊢
            have : x = sdata := mem_id_unique hwf.2 hmem hx hid0
            subst this
            exact Or.inl hact
        have hloop := toolLoop_sessEvol sdata scoring airtable tool_calls
          (({ role := "system"
              content := some (get_system_prompt db sdata.pipeline_id) } : Msg) ::
            (sdata.messages ++ [{ role := "user", content := some t }]) ++
            [aiDump { content := content, tool_calls := tool_calls }])
          (usageLogDB (pushMsg db sid ({ role := "user", content := some t } : Msg))
            sdata.candidate_id "chat" usage) htarget2
        split
        · rename_i e db3 heq
          rw [heq] at hloop
          exact SessEvol.trans hevol2 hloop
        · rename_i db3 heq
          rw [heq] at hloop
          exact SessEvol.trans hevol2 hloop
        · rename_i m3 db3 heq
          rw [heq] at hloop
          have hevol3 : SessEvol db.interview_sessions db3.interview_sessions :=
            SessEvol.trans hevol2 hloop
          cases llm2 with
          | error e => exact hevol3
          | ok response2 =>
            obtain ⟨⟨content2, tcs2⟩, usage2⟩ := response2
            dsimp only
            have hevol4 : SessEvol db.interview_sessions
                (usageLogDB db3 sdata.candidate_id "chat_tool_response" usage2).interview_sessions := by
              have hfr : (usageLogDB db3 sdata.candidate_id "chat_tool_response"
                  usage2).interview_sessions = db3.interview_sessions := by simp
              rw [hfr]
              exact hevol3
            cases content2 with
            | none => exact hevol4
            | some fc =>
              dsimp only
              by_cases hfc : fc = ""
              · rw [if_pos hfc]
                exact hevol4
              · rw [if_neg hfc]
                refine SessEvol.trans hevol4 (SessEvol.single ?_)
                have h2 := SessStep.push
                  (usageLogDB db3 sdata.candidate_id "chat_tool_response"
                    usage2).interview_sessions
                  sid ({ role := "assistant", content := some fc } : Msg) (Or.inr rfl)
                simpa using h2

/-- The Telegram session flow (create, abandon-if-stuck, recreate) is a
chain of legal atomic writes. -/
lemma flow_sessEvol (db : DB) (cid : Nat) (chat : String)
    (g1 g2 : Except String LLMResponse) (hwf : wfDB db) :
    SessEvol db.interview_sessions
      (telegram_session_flow db cid chat g1 g2).interview_sessions := by
  unfold telegram_session_flow
  cases hcr : create_session db cid "telegram" (some chat) g1 with
  | mk res db1 =>
    have hc1 : SessEvol db.interview_sessions db1.interview_sessions := by
      have h := create_sessEvol db cid "telegram" (some chat) g1
      rw [hcr] at h
      exact h
    cases res with
    | err m => exact hc1
    | ok sessn =>
      dsimp only
      cases hlast : sessn.messages.getLast? with
      | none => exact hc1
      | some last =>
        dsimp only
        by_cases hrole : last.role = "assistant"
        · rw [if_pos hrole]
          exact hc1
        · rw [if_neg hrole]
          have htar := create_session_ok_active db cid "telegram" (some chat) g1
            sessn db1 hwf hcr
          have habandon : SessStep db1.interview_sessions
              (abandonUpdate db1 sessn.id).interview_sessions := by
            simpa [abandonUpdate, updateSessions] using
              SessStep.abandon db1.interview_sessions sessn.id htar
          have h3 := create_sessEvol (abandonUpdate db1 sessn.id) cid "telegram"
            (some chat) g2
          exact SessEvol.trans hc1 (SessEvol.trans (SessEvol.single habandon) h3)

/-- Variant of `flow_sessEvol` for a database that differs only outside the
session collection (the candidate inserts `button_click` performs first). -/
lemma flow_sessEvol2 (dbA dbB : DB) (cid : Nat) (chat : String)
    (g1 g2 : Except String LLMResponse)
    (hsess : dbB.interview_sessions = dbA.interview_sessions)
    (hnext : dbB.nextSessionId = dbA.nextSessionId)
    (hwf : wfDB dbA) :
    SessEvol dbA.interview_sessions
      (telegram_session_flow dbB cid chat g1 g2).interview_sessions := by
  have hwfB : wfDB dbB := by
    unfold wfDB
    rw [hsess, hnext]
    exact hwf
  have h := flow_sessEvol dbB cid chat g1 g2 hwfB
  rwa [hsess] at h

/-- The whole `button_click` handler is a chain of legal atomic writes. -/
lemma button_sessEvol (db : DB) (pid : Nat) (chat fn ln : String)
    (g1 g2 : Except String LLMResponse) (hwf : wfDB db) :
    SessEvol db.interview_sessions
      (telegram_button_click db pid chat fn ln g1 g2).interview_sessions := by
  unfold telegram_button_click
  cases hfc : db.candidates.find?
      (fun c => decide (c.telegram_chat_id = some chat ∧ c.pipeline_id = pid)) with
  | some cand => exact flow_sessEvol db cand.id chat g1 g2 hwf
  | none =>
    cases horg : get_target_org_id db with
    | none => exact SessEvol.refl _
    | some org_id =>
      dsimp only
      exact flow_sessEvol2 db _ db.nextCandidateId chat g1 g2 rfl rfl hwf

/-- Every externally triggered operation of the engine rewrites the stored
session collection by a chain of legal atomic writes. -/
lemma applyOp_sessEvol (db : DB) (op : Op) (hwf : wfDB db) :
    SessEvol db.interview_sessions (applyOp db op).interview_sessions := by
  cases op with
  | create cid p c g => exact create_sessEvol db cid p c g
  | turn sid t o => exact process_sessEvol db sid t o hwf
  | button pid chat f l g1 g2 => exact button_sessEvol db pid chat f l g1 g2 hwf

/-! ## Claim theorems -/

/-- A small concrete database used by the witnesses: one organization, one
pipeline with an enabled agent, one candidate, no sessions yet. -/
def dbSample : DB :=
  { users := []
    organizations := [{ id := 0 }]
    pipelines := [{ id := 0
                    interview_agent := some { enabled := true, agent_prompt := "Hi" }
                    stages := [] }]
    candidates := [{ id := 0, organization_id := 0, pipeline_id := 0 }]
    interview_sessions := []
    token_usage_logs := []
    nextSessionId := 0
    nextCandidateId := 1 }

/-- Claim C3: every stored session status stays in
\x7bactive, completed, abandoned\x7d, and every engine operation performs
only the transitions active → completed and active → abandoned — no
session ever leaves a terminal status. -/
theorem C3_status_lifecycle (db : DB) (op : Op) (hwf : wfDB db)
    (hstatus : ∀ s ∈ db.interview_sessions, statusOk s.status) :
    (∀ s ∈ (applyOp db op).interview_sessions, statusOk s.status) ∧
    transitionsOk db.interview_sessions (applyOp db op).interview_sessions := by
  have h := applyOp_sessEvol db op hwf
  exact ⟨h.statusOk_closure hstatus, h.transitionsOk_closure⟩

/-- Witness for C3 on the sample database and a concrete create call. -/
theorem C3_status_lifecycle_witness :
    wfDB dbSample ∧ (∀ s ∈ dbSample.interview_sessions, statusOk s.status) ∧
    ((∀ s ∈ (applyOp dbSample
        (.create 0 "web_simulator" none (.error "boom"))).interview_sessions,
        statusOk s.status) ∧
      transitionsOk dbSample.interview_sessions
        (applyOp dbSample (.create 0 "web_simulator" none (.error "boom"))).interview_sessions) := by
  have hwf : wfDB dbSample := by
    constructor
    · intro s hs
      simp [dbSample] at hs
    · simp [dbSample]
  have hst : ∀ s ∈ dbSample.interview_sessions, statusOk s.status := by
    intro s hs
    simp [dbSample] at hs
  exact ⟨hwf, hst, C3_status_lifecycle dbSample _ hwf hst⟩

/-- Claim C4 (amended): every serialized engine operation preserves the
invariant that no candidate has more than one active session.  The
uniqueness is enforced only by `create_session`'s `find_one` guard, so it
holds across sequential operations but not across overlapping
`create_session` calls: the task suspends between the guard and the
`insert_one`, and no lock or unique index backs the check (see the
counterexample below). -/
theorem C4_single_active (db : DB) (op : Op) (hwf : wfDB db)
    (hone : ∀ cid, activeCount db.interview_sessions cid ≤ 1) :
    ∀ cid, activeCount (applyOp db op).interview_sessions cid ≤ 1 := by
  intro cid
  exact (applyOp_sessEvol db op hwf).activeCount_le_closure cid (hone cid)

/-- Witness for C4 on the sample database and a concrete create call. -/
theorem C4_single_active_witness :
    wfDB dbSample ∧ (∀ cid, activeCount dbSample.interview_sessions cid ≤ 1) ∧
    ∀ cid, activeCount (applyOp dbSample
      (.create 0 "web_simulator" none (.error "down"))).interview_sessions cid ≤ 1 := by
  have hwf : wfDB dbSample := by
    constructor
    · intro s hs
      simp [dbSample] at hs
    · simp [dbSample]
  have hone : ∀ cid, activeCount dbSample.interview_sessions cid ≤ 1 := by
    intro cid
    simp [dbSample, activeCount]
  exact ⟨hwf, hone, C4_single_active dbSample _ hwf hone⟩

/-- Counterexample to C4 as stated (the claim covers concurrent
`create_session` attempts): the only guard is the
`find_one(\x7bcandidate_id, status: "active"\x7d)` check, and the coroutine
suspends at the awaits between that check and the `insert_one`, with no
lock or unique index.  In the interleaving where both overlapping calls
run the guard before either inserts, both observe the same pre-insert
state — the guard below passes, and it would pass identically for the
second call since the first has not yet written — so both proceed to the
post-guard insert phase (`create_fresh`).  Running that phase twice from
the shared observed state leaves the candidate with two distinct active
sessions. -/
theorem C4_counterexample :
    dbSample.interview_sessions.find?
        (fun s => decide (s.candidate_id = 0 ∧ s.status = "active")) = none ∧
    ∃ sA dbA sB dbB,
      create_fresh dbSample 0 0 "web_simulator" none (.error "down") = (.ok sA, dbA) ∧
      create_fresh dbA 0 0 "web_simulator" none (.error "down") = (.ok sB, dbB) ∧
      sA.status = "active" ∧ sB.status = "active" ∧ sA.id ≠ sB.id ∧
      activeCount dbB.interview_sessions 0 = 2 := by
  exact ⟨rfl, _, _, _, _, rfl, rfl, rfl, rfl, by decide, rfl⟩

/-- Claim C10: the durably stored message log only ever receives messages
whose role is `user` or `assistant` — system, tool-call and tool-result
messages live only in the in-memory working history of a turn. -/
theorem C10_stored_roles (db : DB) (op : Op) (hwf : wfDB db)
    (hroles : rolesOk db.interview_sessions) :
    rolesOk (applyOp db op).interview_sessions :=
  (applyOp_sessEvol db op hwf).rolesOk_closure hroles

/-- Witness for C10 on the sample database and a concrete turn call. -/
theorem C10_stored_roles_witness :
    wfDB dbSample ∧ rolesOk dbSample.interview_sessions ∧
    rolesOk (applyOp dbSample (.turn 0 "hello"
      { llm1 := .error "down", llm2 := .error "down"
        scoring := .error "down", airtable := .ok () })).interview_sessions := by
  have hwf : wfDB dbSample := by
    constructor
    · intro s hs
      simp [dbSample] at hs
    · simp [dbSample]
  have hroles : rolesOk dbSample.interview_sessions := by
    intro s hs
    simp [dbSample] at hs
  exact ⟨hwf, hroles, C10_stored_roles dbSample _ hwf hroles⟩

/-- Modelled from the spec (§4.5): the cost formula
`(input_tokens/1e6)*input_rate + (output_tokens/1e6)*output_rate`, to be
compared with what `_log_token_usage` computes. -/
def specCost (input_tokens output_tokens : Int) (input_rate output_rate : ℚ) : ℚ :=
  ((input_tokens : ℚ) / 1000000) * input_rate
    + ((output_tokens : ℚ) / 1000000) * output_rate

/-- Claim C5: every usage record is appended with cost equal to the spec's
per-million formula, the same cost is `$inc`-added to the candidate's and
the organization's running totals, and 100/50 tokens at the configured
$1.00/$2.50 rates give exactly 0.000225. -/
theorem C5_billing (db : DB) (u : Usage) (cid : Nat) (itype : String)
    (cand : Candidate)
    (hc : db.candidates.find? (fun c => decide (c.id = cid)) = some cand) :
    (log_token_usage db u cid itype).token_usage_logs
      = db.token_usage_logs ++
        [{ organization_id := cand.organization_id
           candidate_id := cid
           interaction_type := itype
           model := serviceModel
           input_tokens := (u.prompt_tokens : Int)
           output_tokens := (u.completion_tokens : Int)
           cost := specCost u.prompt_tokens u.completion_tokens
             settings.input_token_cost_per_million
             settings.output_token_cost_per_million }] ∧
    (log_token_usage db u cid itype).candidates
      = db.candidates.map (fun c =>
          if c.id = cid then
            { c with
              total_input_tokens := c.total_input_tokens + (u.prompt_tokens : Int)
              total_output_tokens := c.total_output_tokens + (u.completion_tokens : Int)
              total_ai_cost := c.total_ai_cost + specCost u.prompt_tokens
                u.completion_tokens settings.input_token_cost_per_million
                settings.output_token_cost_per_million }
          else c) ∧
    (log_token_usage db u cid itype).organizations
      = db.organizations.map (fun o =>
          if o.id = cand.organization_id then
            { o with
              total_input_tokens := o.total_input_tokens + (u.prompt_tokens : Int)
              total_output_tokens := o.total_output_tokens + (u.completion_tokens : Int)
              total_ai_cost := o.total_ai_cost + specCost u.prompt_tokens
                u.completion_tokens settings.input_token_cost_per_million
                settings.output_token_cost_per_million }
          else o) ∧
    specCost 100 50 settings.input_token_cost_per_million
      settings.output_token_cost_per_million = 0.000225 := by
  unfold log_token_usage
  rw [hc]
  refine ⟨rfl, rfl, rfl, ?_⟩
  norm_num [specCost, settings]

/-- Witness for C5: the concrete 100/50-token scenario on the sample
database. -/
theorem C5_billing_witness :
    dbSample.candidates.find? (fun c => decide (c.id = 0))
      = some { id := 0, organization_id := 0, pipeline_id := 0 } ∧
    (log_token_usage dbSample ⟨100, 50⟩ 0 "chat").token_usage_logs
      = [{ organization_id := 0
           candidate_id := 0
           interaction_type := "chat"
           model := serviceModel
           input_tokens := 100
           output_tokens := 50
           cost := 0.000225 }] := by
  have hc : dbSample.candidates.find? (fun c => decide (c.id = 0))
      = some { id := 0, organization_id := 0, pipeline_id := 0 } := rfl
  have h := C5_billing dbSample ⟨100, 50⟩ 0 "chat" _ hc
  refine ⟨hc, ?_⟩
  rw [h.1]
  norm_num [dbSample, specCost, settings]

/-- Claim C7: an exception from the first LLM completion call of a
conversational turn is not propagated — `process_message` returns the
error-prefixed text reply instead. -/
theorem C7_llm_error (db : DB) (sid : Nat) (t : String) (o : TurnOracle)
    (sdata : Session) (e : String)
    (hfind : db.interview_sessions.find? (fun s => decide (s.id = sid)) = some sdata)
    (hv : validSessionDoc sdata = true)
    (hst : sdata.status ≠ "completed")
    (herr : o.llm1 = .error e) :
    (process_message db sid t o).1 = .reply ("Error: " ++ e) := by
  obtain ⟨llm1, llm2, scoring, airtable⟩ := o
  simp only at herr
  subst herr
  unfold process_message
  rw [hfind]
  dsimp only
  rw [if_neg (by simp [hv]), if_neg hst]

/-- Witness for C7 on a concrete session and failing LLM call. -/
theorem C7_llm_error_witness :
    ({ dbSample with interview_sessions :=
        [{ id := 9, candidate_id := 0, pipeline_id := 0 }] } : DB).interview_sessions.find?
        (fun s => decide (s.id = 9))
      = some { id := 9, candidate_id := 0, pipeline_id := 0 } ∧
    validSessionDoc { id := 9, candidate_id := 0, pipeline_id := 0 } = true ∧
    ({ id := 9, candidate_id := 0, pipeline_id := 0 } : Session).status ≠ "completed" ∧
    (process_message { dbSample with interview_sessions :=
        [{ id := 9, candidate_id := 0, pipeline_id := 0 }] } 9 "hello"
      { llm1 := .error "rate limited", llm2 := .error "unused"
        scoring := .error "unused", airtable := .ok () }).1
      = .reply ("Error: " ++ "rate limited") := by
  refine ⟨rfl, rfl, by decide, ?_⟩
  exact C7_llm_error _ 9 "hello" _ _ "rate limited" rfl rfl (by decide) rfl

/-- Claim C8: a failing or JSON-malformed scoring call makes
`evaluate_interview` return the empty-scores/zero-total/failure-summary
result instead of raising, and `complete_interview` still closes the
session out as completed. -/
theorem C8_scoring_failure (db : DB) (session : Session) (e : String)
    (a : Except String Unit) (p : Pipeline)
    (hp : db.pipelines.find? (fun q => decide (q.id = session.pipeline_id)) = some p) :
    evaluate_interview db session (.error e) = .ok failDict db ∧
    (∀ resp : ScoreResp, resp.parsed = .error e →
      evaluate_interview db session (.ok resp)
        = .ok failDict (usageLogDB db session.candidate_id "scoring" resp.usage)) ∧
    dictGet failDict "scores" (.arr []) = .arr [] ∧
    dictGet failDict "total_score" (.num 0) = .num 0 ∧
    dictGet failDict "summary_notes" (.str "") = .str "Scoring failed." ∧
    ∃ dbOut, complete_interview db session (.error e) a = .done dbOut ∧
      ∀ s0 ∈ dbOut.interview_sessions, s0.id = session.id →
        s0.status = "completed" ∧ s0.scores = .arr [] ∧ s0.total_score = .num 0 := by
  obtain h1 := evaluate_interview_eq db session (.error e) p hp
  refine ⟨h1, ?_, rfl, rfl, rfl, ?_⟩
  · intro resp hparse
    have h2 := evaluate_interview_eq db session (.ok resp) p hp
    rw [h2]
    simp [scoringResultOf, scoringLogDB, hparse]
  · refine ⟨_, complete_interview_done db session (.error e) a p hp, ?_⟩
    intro s0 hs0 hid
    simp only [markCandidateCompleted_sessions, completeUpdate_sessions,
      scoringLogDB_sessions] at hs0
    obtain ⟨x, hx, rfl⟩ := List.mem_map.mp hs0
    by_cases hxid : x.id = session.id
    · rw [if_pos hxid]
      exact ⟨rfl, rfl, rfl⟩
    · rw [if_neg hxid] at hid
      exact absurd hid hxid

/-- Witness for C8 on a concrete session whose pipeline exists. -/
theorem C8_scoring_failure_witness :
    dbSample.pipelines.find?
        (fun q => decide (q.id = ({ id := 9, candidate_id := 0, pipeline_id := 0 } : Session).pipeline_id))
      = some { id := 0
               interview_agent := some { enabled := true, agent_prompt := "Hi" }
               stages := [] } ∧
    evaluate_interview dbSample { id := 9, candidate_id := 0, pipeline_id := 0 }
      (.error "timeout") = .ok failDict dbSample := by
  have hp : dbSample.pipelines.find?
      (fun q => decide (q.id = ({ id := 9, candidate_id := 0, pipeline_id := 0 } : Session).pipeline_id))
      = some { id := 0
               interview_agent := some { enabled := true, agent_prompt := "Hi" }
               stages := [] } := rfl
  exact ⟨hp, (C8_scoring_failure dbSample _ "timeout" (.ok ()) _ hp).1⟩

/-- Claim C9: for a candidate whose active session already has messages,
`create_session` returns that session unchanged and does not touch the
database — so two calls in a row return the same session id and append no
duplicate opening message. -/
theorem C9_idempotent (db : DB) (cid : Nat) (p : String) (c : Option String)
    (g1 g2 : Except String LLMResponse) (cand : Candidate) (pipe : Pipeline)
    (existing : Session)
    (hc : db.candidates.find? (fun x => decide (x.id = cid)) = some cand)
    (hp : db.pipelines.find? (fun x => decide (x.id = cand.pipeline_id)) = some pipe)
    (hex : db.interview_sessions.find?
      (fun s => decide (s.candidate_id = cid ∧ s.status = "active")) = some existing)
    (hne : existing.messages ≠ [])
    (hv : validSessionDoc existing = true) :
    create_session db cid p c g1 = (.ok existing, db) ∧
    create_session db cid p c g2 = (.ok existing, db) := by
  have key : ∀ g, create_session db cid p c g = (.ok existing, db) := by
    intro g
    unfold create_session
    rw [hc]
    dsimp only
    rw [hp]
    dsimp only
    rw [hex]
    dsimp only
    unfold create_existing
    have hemp : existing.messages.isEmpty = false := by
      simpa [List.isEmpty_iff] using hne
    rw [if_neg (by simp [hemp]), if_neg (by simp [hv])]
  exact ⟨key g1, key g2⟩

/-- A populated active session for the C9 witness. -/
def sessC9 : Session :=
  { id := 5, candidate_id := 0, pipeline_id := 0
    messages := [{ role := "assistant", content := some "Welcome!" }] }

/-- Sample database with the populated active session `sessC9`. -/
def dbC9 : DB :=
  { users := []
    organizations := [{ id := 0 }]
    pipelines := [{ id := 0
                    interview_agent := some { enabled := true, agent_prompt := "Hi" }
                    stages := [] }]
    candidates := [{ id := 0, organization_id := 0, pipeline_id := 0 }]
    interview_sessions := [sessC9]
    token_usage_logs := []
    nextSessionId := 6
    nextCandidateId := 1 }

/-- Witness for C9 on a concrete populated active session. -/
theorem C9_idempotent_witness :
    sessC9.messages ≠ [] ∧
    create_session dbC9 0 "web_simulator" none (.error "unused")
      = (.ok sessC9, dbC9) := by
  refine ⟨by simp [sessC9], ?_⟩
  exact (C9_idempotent dbC9 0 "web_simulator" none (.error "unused") (.error "unused")
    { id := 0, organization_id := 0, pipeline_id := 0 }
    { id := 0
      interview_agent := some { enabled := true, agent_prompt := "Hi" }
      stages := [] }
    sessC9 rfl rfl rfl (by simp [sessC9]) rfl).1

/-- A pipeline with an enabled agent whose stages contain zero questions,
plus a template exercising all four placeholders. -/
def pipelineC1 : Pipeline :=
  { id := 7
    interview_agent := some
      { enabled := true
        agent_prompt := "INTRO\n\x7b\x7bQUESTIONS_LIST\x7d\x7d\nTOTAL=\x7b\x7bTOTAL_QUESTIONS\x7d\x7d LAST=\x7b\x7bLAST_QUESTION_TEXT\x7d\x7d PEN=\x7b\x7bPENULTIMATE_QUESTION\x7d\x7d" }
    stages := [{ questions := [] }] }

/-- Database holding only the zero-question pipeline. -/
def dbC1 : DB := { pipelines := [pipelineC1] }

/-- Counterexample to claim C1: on a pipeline with zero questions across
all stages, prompt compilation does not fail — it substitutes the two
built-in default questions and returns a fully usable system prompt. -/
theorem C1_counterexample :
    questionsData pipelineC1 = [] ∧
    get_system_prompt dbC1 7 =
      "INTRO\n1. Describe your background.\n2. Why do you want this job?\nTOTAL=2 LAST=Why do you want this job? PEN=1" := by
  exact ⟨rfl, rfl⟩

/-- Claim C1 as amended: when the pipeline exists, its agent is enabled and
its stages contain zero questions, `get_system_prompt` succeeds and
compiles the template against the two default questions
("Describe your background.", "Why do you want this job?"), substituting
total 2, penultimate index 1 and the default last-question text. -/
theorem C1_default_questions (db : DB) (pid : Nat) (p : Pipeline) (a : AgentConfig)
    (hp : db.pipelines.find? (fun q => decide (q.id = pid)) = some p)
    (ha : p.interview_agent = some a)
    (hen : a.enabled = true)
    (hq : questionsData p = []) :
    get_system_prompt db pid =
      pyReplace (pyReplace (pyReplace (pyReplace a.agent_prompt
        "\x7b\x7bTOTAL_QUESTIONS\x7d\x7d" "2")
        "\x7b\x7bQUESTIONS_LIST\x7d\x7d"
        "1. Describe your background.\n2. Why do you want this job?")
        "\x7b\x7bLAST_QUESTION_TEXT\x7d\x7d" "Why do you want this job?")
        "\x7b\x7bPENULTIMATE_QUESTION\x7d\x7d" "1" := by
  unfold get_system_prompt
  rw [hp]
  dsimp only
  rw [ha]
  dsimp only
  rw [if_neg (by simp [hen])]
  rw [hq]
  rfl

/-- Witness for the amended C1 on the concrete zero-question pipeline. -/
theorem C1_default_questions_witness :
    dbC1.pipelines.find? (fun q => decide (q.id = 7)) = some pipelineC1 ∧
    pipelineC1.interview_agent = some
      { enabled := true
        agent_prompt := "INTRO\n\x7b\x7bQUESTIONS_LIST\x7d\x7d\nTOTAL=\x7b\x7bTOTAL_QUESTIONS\x7d\x7d LAST=\x7b\x7bLAST_QUESTION_TEXT\x7d\x7d PEN=\x7b\x7bPENULTIMATE_QUESTION\x7d\x7d" } ∧
    questionsData pipelineC1 = [] ∧
    get_system_prompt dbC1 7 =
      pyReplace (pyReplace (pyReplace (pyReplace
        "INTRO\n\x7b\x7bQUESTIONS_LIST\x7d\x7d\nTOTAL=\x7b\x7bTOTAL_QUESTIONS\x7d\x7d LAST=\x7b\x7bLAST_QUESTION_TEXT\x7d\x7d PEN=\x7b\x7bPENULTIMATE_QUESTION\x7d\x7d"
        "\x7b\x7bTOTAL_QUESTIONS\x7d\x7d" "2")
        "\x7b\x7bQUESTIONS_LIST\x7d\x7d"
        "1. Describe your background.\n2. Why do you want this job?")
        "\x7b\x7bLAST_QUESTION_TEXT\x7d\x7d" "Why do you want this job?")
        "\x7b\x7bPENULTIMATE_QUESTION\x7d\x7d" "1" := by
  exact ⟨rfl, rfl, rfl,
    C1_default_questions dbC1 7 pipelineC1 _ rfl rfl rfl rfl⟩

/-- Counterexample to claim C2: the three tools are named `end_interview`,
`Retrieve_messages1` and `User_Info1` — the names `retrieve_context` and
`save_candidate_info` appear nowhere in the schema. -/
theorem C2_counterexample :
    tools.map (fun t => t.function_name)
      = ["end_interview", "Retrieve_messages1", "User_Info1"] ∧
    ¬ (∀ t ∈ tools, t.function_name = "end_interview" ∨
        t.function_name = "retrieve_context" ∨
        t.function_name = "save_candidate_info") := by
  refine ⟨rfl, ?_⟩
  intro h
  have := h tools[1] (by simp [tools])
  simp [tools] at this

/-- Claim C2 as amended: every turn passes the same fixed schema of exactly
three function tools, named `end_interview`, `Retrieve_messages1` and
`User_Info1`; the first two declare no parameters and the third declares a
single required open-object parameter `data`. -/
theorem C2_tool_schema :
    tools.length = 3 ∧
    tools.map (fun t => t.function_name)
      = ["end_interview", "Retrieve_messages1", "User_Info1"] ∧
    tools.map (fun t => t.parameters.properties)
      = [[], [], [("data", "object")]] ∧
    tools.map (fun t => t.parameters.required) = [[], [], ["data"]] ∧
    ∀ t ∈ tools, t.schema_type = "function" := by
  refine ⟨rfl, rfl, rfl, rfl, ?_⟩
  intro t ht
  simp [tools] at ht
  rcases ht with h | h | h <;> subst h <;> rfl

lemma toolLoop_end (session : Session) (sc : Except String ScoreResp)
    (a : Except String Unit) (tc : ToolCall) (rest : List ToolCall)
    (msgs : List Msg) (db : DB) (args : List (String × Json)) (p : Pipeline)
    (hend : tc.function_name = "end_interview")
    (hargs : tc.argsParse = .ok args)
    (hp : db.pipelines.find? (fun q => decide (q.id = session.pipeline_id)) = some p) :
    toolLoop session sc a (tc :: rest) msgs db
      = .completedNow (markCandidateCompleted
          (completeUpdate (scoringLogDB db session sc) session.id
            (dictGet (scoringResultOf sc) "scores" (.arr []))
            (dictGet (scoringResultOf sc) "total_score" (.num 0)))
          session.candidate_id) := by
  simp only [toolLoop]
  rw [hargs]
  dsimp only
  rw [if_pos hend, complete_interview_done db session sc a p hp]

/-- Processing the tool calls before (and including) the first
`end_interview` call: provided the earlier calls parse and are not
`end_interview` themselves, the loop completes the interview with the
oracle-determined scores, whatever the working history. -/
lemma toolLoop_ends (session : Session) (sc : Except String ScoreResp)
    (a : Except String Unit) (pre : List ToolCall) (tc : ToolCall)
    (rest : List ToolCall) (db : DB) (args : List (String × Json)) (p : Pipeline)
    (hpre : ∀ tc0 ∈ pre, tc0.function_name ≠ "end_interview" ∧
      ∃ a0, tc0.argsParse = .ok a0)
    (hend : tc.function_name = "end_interview")
    (hargs : tc.argsParse = .ok args)
    (hp : db.pipelines.find? (fun q => decide (q.id = session.pipeline_id)) = some p) :
    ∀ msgs, toolLoop session sc a (pre ++ tc :: rest) msgs db
      = .completedNow (markCandidateCompleted
          (completeUpdate (scoringLogDB db session sc) session.id
            (dictGet (scoringResultOf sc) "scores" (.arr []))
            (dictGet (scoringResultOf sc) "total_score" (.num 0)))
          session.candidate_id) := by
  revert hpre
  induction pre with
  | nil =>
    intro _ msgs
    exact toolLoop_end session sc a tc rest msgs db args p hend hargs hp
  | cons tc0 pre ih =>
    intro hpre msgs
    obtain ⟨hne, a0, hpa⟩ := hpre tc0 (by simp)
    simp only [List.cons_append, toolLoop]
    rw [hpa]
    dsimp only
    rw [if_neg hne]
    exact ih (fun x hx => hpre x (by simp [hx])) _

/-- Full characterization of a turn whose LLM response carries an
`end_interview` tool call (all argument strings up to it parsing): the
fixed acknowledgment is returned and the database is exactly the completed
one; the post-tool LLM oracle is never consumed. -/
lemma process_end_run (db : DB) (sid : Nat) (t : String) (o : TurnOracle)
    (sdata : Session) (response : LLMResponse) (p : Pipeline)
    (pre rest : List ToolCall) (tc : ToolCall) (args : List (String × Json))
    (hfind : db.interview_sessions.find? (fun s => decide (s.id = sid)) = some sdata)
    (hv : validSessionDoc sdata = true)
    (hst : sdata.status ≠ "completed")
    (hllm : o.llm1 = .ok response)
    (hsplit : response.message.tool_calls = pre ++ tc :: rest)
    (hend : tc.function_name = "end_interview")
    (hpre : ∀ tc0 ∈ pre, tc0.function_name ≠ "end_interview" ∧
      ∃ a0, tc0.argsParse = .ok a0)
    (hargs : tc.argsParse = .ok args)
    (hp : db.pipelines.find? (fun q => decide (q.id = sdata.pipeline_id)) = some p) :
    process_message db sid t o
      = (.reply "Interview Completed. Thank you!",
        markCandidateCompleted
          (completeUpdate
            (scoringLogDB
              (usageLogDB (pushMsg db sid { role := "user", content := some t })
                sdata.candidate_id "chat" response.usage)
              sdata o.scoring)
            sdata.id
            (dictGet (scoringResultOf o.scoring) "scores" (.arr []))
            (dictGet (scoringResultOf o.scoring) "total_score" (.num 0)))
          sdata.candidate_id) := by
  obtain ⟨llm1, llm2, scoring, airtable⟩ := o
  obtain ⟨⟨content, tcs⟩, usage⟩ := response
  simp only at hllm hsplit ⊢
  subst hllm
  subst hsplit
  have hp2 : (usageLogDB (pushMsg db sid { role := "user", content := some t })
      sdata.candidate_id "chat" usage).pipelines.find?
        (fun q => decide (q.id = sdata.pipeline_id)) = some p := by
    simpa using hp
  unfold process_message
  rw [hfind]
  dsimp only
  rw [if_neg (by simp [hv]), if_neg hst]
  have hne : ¬ ((pre ++ tc :: rest).isEmpty = true) := by
    cases pre <;> simp
  rw [if_neg hne]
  split
  · rename_i e db3 heq
    have hcontra := (toolLoop_ends sdata scoring airtable pre tc rest _ args p
      hpre hend hargs hp2 _).symm.trans heq
    simp at hcontra
  · rename_i db3 heq
    have hsame := (toolLoop_ends sdata scoring airtable pre tc rest _ args p
      hpre hend hargs hp2 _).symm.trans heq
    simp only [LoopOut.completedNow.injEq] at hsame
    rw [← hsame]
  · rename_i m3 db3 heq
    have hcontra := (toolLoop_ends sdata scoring airtable pre tc rest _ args p
      hpre hend hargs hp2 _).symm.trans heq
    simp at hcontra

/-- A mid-conversation active session for C6. -/
def sessC6 : Session :=
  { id := 3, candidate_id := 0, pipeline_id := 0
    messages := [{ role := "assistant", content := some "Tell me about yourself." }] }

/-- Database hosting `sessC6`, its candidate and its pipeline. -/
def dbC6 : DB :=
  { users := []
    organizations := [{ id := 0 }]
    pipelines := [{ id := 0
                    interview_agent := some { enabled := true, agent_prompt := "Hi" }
                    stages := [] }]
    candidates := [{ id := 0, organization_id := 0, pipeline_id := 0 }]
    interview_sessions := [sessC6]
    token_usage_logs := []
    nextSessionId := 4
    nextCandidateId := 1 }

/-- An `end_interview` tool call whose `arguments` string is not valid
JSON, so `json.loads` raises before the name is even inspected. -/
def tcC6bad : ToolCall :=
  { id := "call_1", function_name := "end_interview"
    argsParse := .error "Expecting value: line 1 column 1 (char 0)" }

/-- Oracle delivering a first response that carries only `tcC6bad`. -/
def oracleC6bad : TurnOracle :=
  { llm1 := .ok { message := { content := none, tool_calls := [tcC6bad] } }
    llm2 := .error "unused"
    scoring := .error "unused"
    airtable := .ok () }

/-- Counterexample to C6 as stated: the model's response contains an
`end_interview` tool call, yet because its argument string fails
`json.loads` (which runs before the name dispatch), the turn returns an
`Error:` reply instead of the fixed acknowledgment, the session stays
`active`, and the candidate's status is untouched. -/
theorem C6_counterexample :
    oracleC6bad.llm1 = .ok { message := { content := none, tool_calls := [tcC6bad] } } ∧
    tcC6bad.function_name = "end_interview" ∧
    (process_message dbC6 3 "I am done" oracleC6bad).1
      = .reply "Error: Expecting value: line 1 column 1 (char 0)" ∧
    ((process_message dbC6 3 "I am done" oracleC6bad).2.interview_sessions.map
      Session.status) = ["active"] ∧
    ((process_message dbC6 3 "I am done" oracleC6bad).2.candidates.map
      Candidate.status) = ["active"] :=
  ⟨rfl, rfl, rfl, rfl, rfl⟩

/-- Claim C6 (amended): for every turn whose first LLM response carries an
`end_interview` tool call, provided the argument strings of it and of the
tool calls before it parse as JSON and the session's pipeline exists, the
turn returns the fixed "Interview Completed. Thank you!" acknowledgment,
is independent of the post-tool LLM oracle (no second LLM call is made),
marks the session completed with the oracle-determined scores and total
(the failure dictionary's empty list and zero on scoring failure), and
sets the candidate's status to `interview_completed`. -/
theorem C6_completion (db : DB) (sid : Nat) (t : String) (o : TurnOracle)
    (sdata : Session) (response : LLMResponse) (p : Pipeline)
    (pre rest : List ToolCall) (tc : ToolCall) (args : List (String × Json))
    (hfind : db.interview_sessions.find? (fun s => decide (s.id = sid)) = some sdata)
    (hv : validSessionDoc sdata = true)
    (hst : sdata.status ≠ "completed")
    (hllm : o.llm1 = .ok response)
    (hsplit : response.message.tool_calls = pre ++ tc :: rest)
    (hend : tc.function_name = "end_interview")
    (hpre : ∀ tc0 ∈ pre, tc0.function_name ≠ "end_interview" ∧
      ∃ a0, tc0.argsParse = .ok a0)
    (hargs : tc.argsParse = .ok args)
    (hp : db.pipelines.find? (fun q => decide (q.id = sdata.pipeline_id)) = some p) :
    (process_message db sid t o).1 = .reply "Interview Completed. Thank you!" ∧
    (∀ l2, process_message db sid t { o with llm2 := l2 } = process_message db sid t o) ∧
    (∀ s0 ∈ (process_message db sid t o).2.interview_sessions, s0.id = sdata.id →
      s0.status = "completed" ∧
      s0.scores = dictGet (scoringResultOf o.scoring) "scores" (.arr []) ∧
      s0.total_score = dictGet (scoringResultOf o.scoring) "total_score" (.num 0)) ∧
    (∀ c0 ∈ (process_message db sid t o).2.candidates, c0.id = sdata.candidate_id →
      c0.status = "interview_completed") := by
  have hrun := process_end_run db sid t o sdata response p pre rest tc args
    hfind hv hst hllm hsplit hend hpre hargs hp
  refine ⟨by rw [hrun], ?_, ?_, ?_⟩
  · intro l2
    have hrun2 := process_end_run db sid t { o with llm2 := l2 } sdata response p
      pre rest tc args hfind hv hst hllm hsplit hend hpre hargs hp
    rw [hrun2, hrun]
  · intro s0 hs0 hid
    rw [hrun] at hs0
    simp only [markCandidateCompleted_sessions, completeUpdate_sessions,
      scoringLogDB_sessions, usageLogDB_sessions, pushMsg_sessions] at hs0
    obtain ⟨x, hx, rfl⟩ := List.mem_map.mp hs0
    by_cases hxid : x.id = sdata.id
    · rw [if_pos hxid]
      exact ⟨rfl, rfl, rfl⟩
    · rw [if_neg hxid] at hid
      exact absurd hid hxid
  · intro c0 hc0 hid
    rw [hrun] at hc0
    simp only [markCandidateCompleted] at hc0
    obtain ⟨x, hx, rfl⟩ := List.mem_map.mp hc0
    by_cases hxid : x.id = sdata.candidate_id
    · rw [if_pos hxid]
    · rw [if_neg hxid] at hid
      exact absurd hid hxid

/-- A well-formed `end_interview` tool call (empty JSON object arguments). -/
def tcC6 : ToolCall :=
  { id := "call_9", function_name := "end_interview", argsParse := .ok [] }

/-- The first LLM response of the C6 witness turn: only the
`end_interview` call. -/
def respC6 : LLMResponse :=
  { message := { content := none, tool_calls := [tcC6] } }

/-- Oracle for the C6 witness turn (scoring fails, exercising the
failure-dictionary path; the post-tool LLM outcome is never consumed). -/
def oracleC6 : TurnOracle :=
  { llm1 := .ok respC6
    llm2 := .error "unused"
    scoring := .error "unused"
    airtable := .ok () }

/-- Witness for the amended C6 on a concrete turn. -/
theorem C6_completion_witness :
    (process_message dbC6 3 "I am done" oracleC6).1
      = .reply "Interview Completed. Thank you!" :=
  (C6_completion dbC6 3 "I am done" oracleC6 sessC6 respC6
    { id := 0
      interview_agent := some { enabled := true, agent_prompt := "Hi" }
      stages := [] }
    [] [] tcC6 [] rfl rfl (by decide) rfl rfl rfl (by simp) rfl rfl).1

end Interview
